import Mathlib

/-! # CubbyFlow: `ImplicitSurfaceSet2` and the diffusion-solver binding

A shallow embedding of `Sources/Core/Geometry/ImplicitSurfaceSet2.cpp` and of the
`"Solver"` lambda of `Sources/API/Python/Solver/Grid/GridForwardEulerDiffusionSolver.cpp`.

Conventions of the embedding:

* a finite, non-NaN `double` is a rational number; the only operations the embedded code
  performs on doubles are comparisons, `std::min` and copies, which are exact; that a value
  is one a double can hold (at most `DBL_MAX`) is stated as a hypothesis where it matters,
  and `DBL_INF`, a rational above every finite double, stands for `+infinity` where an
  infinite answer is the input;
* a surface handle (`std::shared_ptr`) is the record of the answers of the virtual methods
  of the surface it points to; the answers are functions of the query only, so a member
  never changes its answers after insertion;
* a `const` member function that touches the `mutable` cache returns its result together
  with the state of the object after the call;
* classes whose code is not part of the embedded sources (the BVH, `Vector2D::DistanceTo`,
  `SurfaceToImplicit2`, `Ray2D::PointAt`, member initialisers of the header) are parameters.
-/

namespace CubbyFlow

/-! ## Basic types -/

/-- A non-NaN `double` as a rational number: a finite double is its own value, and `DBL_INF`
below stands for `+infinity`. -/
abbrev Double := ℚ

/-- The value of `std::numeric_limits<double>::max()`, that is `(2 - 2^(-52)) * 2^1023`. -/
def DBL_MAX : Double := 2 ^ 1024 - 2 ^ 971

/-- The double `+infinity`, as far as the embedded code can tell: the code compares and
copies doubles and does nothing else with them, `+infinity` compares above every finite
double, and so does `2 ^ 1024`, the power of two that follows `DBL_MAX`. -/
def DBL_INF : Double := 2 ^ 1024

/-- The two-argument `std::min`: the second argument is returned only when strictly smaller. -/
def stdMin (a b : Double) : Double := if b < a then b else a

/-- The class `Vector2D` as a pair of coordinates. -/
structure Vector2D where
  x : Double
  y : Double
deriving DecidableEq, Repr

/-- The class `Ray2D`: origin and direction. -/
structure Ray2D where
  origin : Vector2D
  direction : Vector2D
deriving DecidableEq, Repr

/-- The class `BoundingBox2D`: lower and upper corner. -/
structure BoundingBox2D where
  lowerCorner : Vector2D
  upperCorner : Vector2D
deriving DecidableEq, Repr

/-- The class `Transform2`: translation and orientation angle. -/
structure Transform2 where
  translation : Vector2D
  orientation : Double
deriving DecidableEq, Repr

/-- The struct `SurfaceRayIntersection2`. -/
structure SurfaceRayIntersection2 where
  isIntersecting : Bool
  distance : Double
  point : Vector2D
  normal : Vector2D
deriving DecidableEq, Repr

/-- The public interface of `Surface2` as seen through a `Surface2Ptr`: the answers of the
virtual methods. -/
structure Surface2 where
  IsBounded : Bool
  IsValidGeometry : Bool
  ClosestPoint : Vector2D → Vector2D
  ClosestDistance : Vector2D → Double
  ClosestNormal : Vector2D → Vector2D
  Intersects : Ray2D → Bool
  ClosestIntersection : Ray2D → SurfaceRayIntersection2
  IsInside : Vector2D → Bool
  GetBoundingBox : BoundingBox2D

/-- The public interface of `ImplicitSurface2` as seen through an `ImplicitSurface2Ptr`:
a `Surface2` that also answers `SignedDistance`. -/
structure ImplicitSurface2 extends Surface2 where
  SignedDistance : Vector2D → Double

/-! ## The BVH (interface only) -/

/-- The state of a `BVH2<ImplicitSurface2Ptr>`: `Build` is deterministic, so the tree is
determined by the two arrays handed to `Build`. -/
structure BVH2Tree where
  items : List ImplicitSurface2
  bounds : List BoundingBox2D

/-- A default-constructed BVH holds no item. -/
def BVH2Tree.empty : BVH2Tree := { items := [], bounds := [] }

/-- The call `BVH2::Build(items, bounds)` replaces the content of the tree. -/
def BVH2Tree.Build (items : List ImplicitSurface2) (bounds : List BoundingBox2D) : BVH2Tree :=
  { items := items, bounds := bounds }

/-- The struct `NearestNeighborQueryResult2<ImplicitSurface2Ptr>`; `item = none` is the
null pointer. -/
structure NearestNeighborQueryResult2 where
  item : Option ImplicitSurface2
  distance : Double

/-- The struct `ClosestIntersectionQueryResult2<ImplicitSurface2Ptr>`. -/
structure ClosestIntersectionQueryResult2 where
  item : Option ImplicitSurface2
  distance : Double

/-- The query methods of the class `BVH2`, whose code is not among the embedded sources:
they are taken as parameters of every function that calls them. -/
structure BVH2 where
  Nearest : BVH2Tree → Vector2D → (ImplicitSurface2 → Vector2D → Double) →
    NearestNeighborQueryResult2
  Intersects : BVH2Tree → Ray2D → (ImplicitSurface2 → Ray2D → Bool) → Bool
  ClosestIntersection : BVH2Tree → Ray2D → (ImplicitSurface2 → Ray2D → Double) →
    ClosestIntersectionQueryResult2

/-! ## The object state -/

/-- The data members of `ImplicitSurfaceSet2`, preceded by the two of its base class. -/
structure ImplicitSurfaceSet2 where
  transform : Transform2
  isNormalFlipped : Bool
  m_surfaces : List ImplicitSurface2
  m_unboundedSurfaces : List ImplicitSurface2
  m_bvh : BVH2Tree
  m_bvhInvalidated : Bool

namespace ImplicitSurfaceSet2

/-- The member function `InvalidateBVH`: sets the dirty flag. -/
def InvalidateBVH (s : ImplicitSurfaceSet2) : ImplicitSurfaceSet2 :=
  { s with m_bvhInvalidated := true }

/-- The loop of `BuildBVH`: collects the bounded members, in order, and their boxes. -/
def collectBounded :
    List ImplicitSurface2 → List ImplicitSurface2 × List BoundingBox2D
  | [] => ([], [])
  | surface :: rest =>
    let (surfs, bounds) := collectBounded rest
    if surface.IsBounded then (surface :: surfs, surface.GetBoundingBox :: bounds)
    else (surfs, bounds)

/-- The member function `BuildBVH`: when the dirty flag is set, rebuilds the tree from the bounded members of
the current sequence and clears the flag; otherwise does nothing. -/
def BuildBVH (s : ImplicitSurfaceSet2) : ImplicitSurfaceSet2 :=
  if s.m_bvhInvalidated then
    let (surfs, bounds) := collectBounded s.m_surfaces
    { s with m_bvh := BVH2Tree.Build surfs bounds, m_bvhInvalidated := false }
  else s

/-- The member function `UpdateQueryEngine`: invalidate, then build. -/
def UpdateQueryEngine (s : ImplicitSurfaceSet2) : ImplicitSurfaceSet2 :=
  BuildBVH (InvalidateBVH s)

/-- The loop of the first constructor: appends every member that is not bounded. -/
def appendUnbounded (acc : List ImplicitSurface2) :
    List ImplicitSurface2 → List ImplicitSurface2
  | [] => acc
  | surface :: rest =>
    if !surface.IsBounded then appendUnbounded (acc ++ [surface]) rest
    else appendUnbounded acc rest

/-- The state of the members that a constructor does not name in its initialiser list:
empty arrays, a default-constructed tree and the default member initialiser of
`m_bvhInvalidated`, which the header (not embedded) fixes and is a parameter here. -/
def defaultInit (flag0 : Bool) (tr : Transform2) (fl : Bool) : ImplicitSurfaceSet2 :=
  { transform := tr, isNormalFlipped := fl, m_surfaces := [], m_unboundedSurfaces := [],
    m_bvh := BVH2Tree.empty, m_bvhInvalidated := flag0 }

/-- The constructor from an array of implicit surfaces. -/
def ofImplicit (flag0 : Bool) (surfaces : List ImplicitSurface2) (tr : Transform2)
    (fl : Bool) : ImplicitSurfaceSet2 :=
  let s0 := { defaultInit flag0 tr fl with m_surfaces := surfaces }
  InvalidateBVH { s0 with m_unboundedSurfaces := appendUnbounded s0.m_unboundedSurfaces s0.m_surfaces }

/-- The member function `AddSurface`. -/
def AddSurface (s : ImplicitSurfaceSet2) (surface : ImplicitSurface2) : ImplicitSurfaceSet2 :=
  let s1 := { s with m_surfaces := s.m_surfaces ++ [surface] }
  let s2 := if !surface.IsBounded then
      { s1 with m_unboundedSurfaces := s1.m_unboundedSurfaces ++ [surface] }
    else s1
  InvalidateBVH s2

/-- The member function `AddExplicitSurface`; the adapter class `SurfaceToImplicit2` is a parameter. -/
def AddExplicitSurface (SurfaceToImplicit2 : Surface2 → ImplicitSurface2)
    (s : ImplicitSurfaceSet2) (surface : Surface2) : ImplicitSurfaceSet2 :=
  AddSurface s (SurfaceToImplicit2 surface)

/-- The constructor from an array of explicit surfaces. -/
def ofExplicit (SurfaceToImplicit2 : Surface2 → ImplicitSurface2) (flag0 : Bool)
    (surfaces : List Surface2) (tr : Transform2) (fl : Bool) : ImplicitSurfaceSet2 :=
  surfaces.foldl (AddExplicitSurface SurfaceToImplicit2) (defaultInit flag0 tr fl)

/-- The copy constructor: base class and the two arrays are copied; the tree and the flag
are default-initialised. -/
def copyCtor (flag0 : Bool) (other : ImplicitSurfaceSet2) : ImplicitSurfaceSet2 :=
  { defaultInit flag0 other.transform other.isNormalFlipped with
    m_surfaces := other.m_surfaces, m_unboundedSurfaces := other.m_unboundedSurfaces }

/-- The move constructor, as far as the constructed object is concerned. -/
def moveCtor (flag0 : Bool) (other : ImplicitSurfaceSet2) : ImplicitSurfaceSet2 :=
  { defaultInit flag0 other.transform other.isNormalFlipped with
    m_surfaces := other.m_surfaces, m_unboundedSurfaces := other.m_unboundedSurfaces }

/-- The copy assignment `operator=`: base class and the two arrays are assigned; `m_bvh` and
`m_bvhInvalidated` are not mentioned and keep their values. -/
def assign (s other : ImplicitSurfaceSet2) : ImplicitSurfaceSet2 :=
  { s with transform := other.transform, isNormalFlipped := other.isNormalFlipped,
           m_surfaces := other.m_surfaces, m_unboundedSurfaces := other.m_unboundedSurfaces }

/-- The loop of `IsBounded`: `some false` when the loop returns early. -/
def IsBounded.loop : List ImplicitSurface2 → Option Bool
  | [] => none
  | surface :: rest => if !surface.IsBounded then some false else IsBounded.loop rest

/-- The member function `IsBounded`. -/
def IsBounded (s : ImplicitSurfaceSet2) : Bool :=
  match IsBounded.loop s.m_surfaces with
  | some r => r
  | none => !s.m_surfaces.isEmpty

/-- The lambda `distanceFunc` of the three closest-* queries. -/
def distanceFunc (surface : ImplicitSurface2) (pt : Vector2D) : Double :=
  surface.ClosestDistance pt

/-- The lambda `testFunc` of `IntersectsLocal`. -/
def intersectsTestFunc (surface : ImplicitSurface2) (ray : Ray2D) : Bool :=
  surface.Intersects ray

/-- The lambda `testFunc` of `ClosestIntersectionLocal`. -/
def closestIntersectionTestFunc (surface : ImplicitSurface2) (ray : Ray2D) : Double :=
  (surface.ClosestIntersection ray).distance

/-- The loop of `ClosestPointLocal` over the unbounded cache; the loop state is
`(minDist, result)`. -/
def ClosestPointLocal.loop (DistanceTo : Vector2D → Vector2D → Double)
    (otherPoint : Vector2D) : Double × Vector2D → List ImplicitSurface2 → Double × Vector2D
  | acc, [] => acc
  | (minDist, result), surface :: rest =>
    let pt := surface.ClosestPoint otherPoint
    let dist := DistanceTo pt otherPoint
    if dist < minDist then
      ClosestPointLocal.loop DistanceTo otherPoint (dist, surface.ClosestPoint otherPoint) rest
    else ClosestPointLocal.loop DistanceTo otherPoint (minDist, result) rest

/-- The member function `ClosestPointLocal`; `Vector2D::DistanceTo` and the BVH are parameters. -/
def ClosestPointLocal (DistanceTo : Vector2D → Vector2D → Double) (bvh : BVH2)
    (s : ImplicitSurfaceSet2) (otherPoint : Vector2D) : Vector2D × ImplicitSurfaceSet2 :=
  let s1 := BuildBVH s
  let result0 : Vector2D := { x := DBL_MAX, y := DBL_MAX }
  let queryResult := bvh.Nearest s1.m_bvh otherPoint distanceFunc
  let result1 := match queryResult.item with
    | some item => item.ClosestPoint otherPoint
    | none => result0
  ((ClosestPointLocal.loop DistanceTo otherPoint (queryResult.distance, result1)
      s1.m_unboundedSurfaces).2, s1)

/-- The loop of `ClosestDistanceLocal` over the unbounded cache; the loop state is
`minDist`. -/
def ClosestDistanceLocal.loop (DistanceTo : Vector2D → Vector2D → Double)
    (otherPoint : Vector2D) : Double → List ImplicitSurface2 → Double
  | minDist, [] => minDist
  | minDist, surface :: rest =>
    let pt := surface.ClosestPoint otherPoint
    let dist := DistanceTo pt otherPoint
    if dist < minDist then ClosestDistanceLocal.loop DistanceTo otherPoint dist rest
    else ClosestDistanceLocal.loop DistanceTo otherPoint minDist rest

/-- The member function `ClosestDistanceLocal`. -/
def ClosestDistanceLocal (DistanceTo : Vector2D → Vector2D → Double) (bvh : BVH2)
    (s : ImplicitSurfaceSet2) (otherPoint : Vector2D) : Double × ImplicitSurfaceSet2 :=
  let s1 := BuildBVH s
  let queryResult := bvh.Nearest s1.m_bvh otherPoint distanceFunc
  (ClosestDistanceLocal.loop DistanceTo otherPoint queryResult.distance
      s1.m_unboundedSurfaces, s1)

/-- The loop of `ClosestNormalLocal` over the unbounded cache; the loop state is
`(minDist, result)`. -/
def ClosestNormalLocal.loop (DistanceTo : Vector2D → Vector2D → Double)
    (otherPoint : Vector2D) : Double × Vector2D → List ImplicitSurface2 → Double × Vector2D
  | acc, [] => acc
  | (minDist, result), surface :: rest =>
    let pt := surface.ClosestPoint otherPoint
    let dist := DistanceTo pt otherPoint
    if dist < minDist then
      ClosestNormalLocal.loop DistanceTo otherPoint (dist, surface.ClosestNormal otherPoint) rest
    else ClosestNormalLocal.loop DistanceTo otherPoint (minDist, result) rest

/-- The member function `ClosestNormalLocal`. -/
def ClosestNormalLocal (DistanceTo : Vector2D → Vector2D → Double) (bvh : BVH2)
    (s : ImplicitSurfaceSet2) (otherPoint : Vector2D) : Vector2D × ImplicitSurfaceSet2 :=
  let s1 := BuildBVH s
  let result0 : Vector2D := { x := 1, y := 0 }
  let queryResult := bvh.Nearest s1.m_bvh otherPoint distanceFunc
  let result1 := match queryResult.item with
    | some item => item.ClosestNormal otherPoint
    | none => result0
  ((ClosestNormalLocal.loop DistanceTo otherPoint (queryResult.distance, result1)
      s1.m_unboundedSurfaces).2, s1)

/-- The loop of `IntersectsLocal` over the unbounded cache (`result |= ...`). -/
def IntersectsLocal.loop (ray : Ray2D) : Bool → List ImplicitSurface2 → Bool
  | result, [] => result
  | result, surface :: rest => IntersectsLocal.loop ray (result || surface.Intersects ray) rest

/-- The member function `IntersectsLocal`. -/
def IntersectsLocal (bvh : BVH2) (s : ImplicitSurfaceSet2) (ray : Ray2D) :
    Bool × ImplicitSurfaceSet2 :=
  let s1 := BuildBVH s
  let result := bvh.Intersects s1.m_bvh ray intersectsTestFunc
  (IntersectsLocal.loop ray result s1.m_unboundedSurfaces, s1)

/-- The loop of `ClosestIntersectionLocal` over the unbounded cache. -/
def ClosestIntersectionLocal.loop (ray : Ray2D) :
    SurfaceRayIntersection2 → List ImplicitSurface2 → SurfaceRayIntersection2
  | result, [] => result
  | result, surface :: rest =>
    let localResult := surface.ClosestIntersection ray
    if localResult.distance < result.distance then
      ClosestIntersectionLocal.loop ray localResult rest
    else ClosestIntersectionLocal.loop ray result rest

/-- The member function `ClosestIntersectionLocal`; `Ray2D::PointAt`, the BVH and the value `result0` of a
default-constructed `SurfaceRayIntersection2` (fixed by a header that is not embedded) are
parameters. -/
def ClosestIntersectionLocal (PointAt : Ray2D → Double → Vector2D) (bvh : BVH2)
    (result0 : SurfaceRayIntersection2) (s : ImplicitSurfaceSet2) (ray : Ray2D) :
    SurfaceRayIntersection2 × ImplicitSurfaceSet2 :=
  let s1 := BuildBVH s
  let queryResult := bvh.ClosestIntersection s1.m_bvh ray closestIntersectionTestFunc
  let result1 : SurfaceRayIntersection2 :=
    { result0 with distance := queryResult.distance,
                   isIntersecting := queryResult.item.isSome }
  let result2 : SurfaceRayIntersection2 := match queryResult.item with
    | some item =>
      let point := PointAt ray queryResult.distance
      { result1 with point := point, normal := item.ClosestNormal point }
    | none => result1
  (ClosestIntersectionLocal.loop ray result2 s1.m_unboundedSurfaces, s1)

/-- The loop of `SignedDistanceLocal` over all members; the loop state is `sdf`. -/
def SignedDistanceLocal.loop (otherPoint : Vector2D) : Double → List ImplicitSurface2 → Double
  | sdf, [] => sdf
  | sdf, surface :: rest =>
    SignedDistanceLocal.loop otherPoint (stdMin sdf (surface.SignedDistance otherPoint)) rest

/-- The member function `SignedDistanceLocal`: no call of `BuildBVH`, the object is returned as it was. -/
def SignedDistanceLocal (s : ImplicitSurfaceSet2) (otherPoint : Vector2D) :
    Double × ImplicitSurfaceSet2 :=
  (SignedDistanceLocal.loop otherPoint DBL_MAX s.m_surfaces, s)

/-- The states of an `ImplicitSurfaceSet2` object that the public interface can produce:
the two constructors, copy and move construction, copy assignment, `AddSurface`,
`AddExplicitSurface`, `UpdateQueryEngine`, and the queries that call `BuildBVH` (whose only
effect on the object is that of `BuildBVH`). -/
inductive Reachable (SurfaceToImplicit2 : Surface2 → ImplicitSurface2) (flag0 : Bool) :
    ImplicitSurfaceSet2 → Prop
  | ofImplicit (surfaces : List ImplicitSurface2) (tr : Transform2) (fl : Bool) :
      Reachable SurfaceToImplicit2 flag0 (ofImplicit flag0 surfaces tr fl)
  | ofExplicit (surfaces : List Surface2) (tr : Transform2) (fl : Bool) :
      Reachable SurfaceToImplicit2 flag0 (ofExplicit SurfaceToImplicit2 flag0 surfaces tr fl)
  | copyCtor {other : ImplicitSurfaceSet2} :
      Reachable SurfaceToImplicit2 flag0 other →
      Reachable SurfaceToImplicit2 flag0 (copyCtor flag0 other)
  | moveCtor {other : ImplicitSurfaceSet2} :
      Reachable SurfaceToImplicit2 flag0 other →
      Reachable SurfaceToImplicit2 flag0 (moveCtor flag0 other)
  | assign {s other : ImplicitSurfaceSet2} :
      Reachable SurfaceToImplicit2 flag0 s → Reachable SurfaceToImplicit2 flag0 other →
      Reachable SurfaceToImplicit2 flag0 (assign s other)
  | AddSurface {s : ImplicitSurfaceSet2} (surface : ImplicitSurface2) :
      Reachable SurfaceToImplicit2 flag0 s →
      Reachable SurfaceToImplicit2 flag0 (AddSurface s surface)
  | AddExplicitSurface {s : ImplicitSurfaceSet2} (surface : Surface2) :
      Reachable SurfaceToImplicit2 flag0 s →
      Reachable SurfaceToImplicit2 flag0 (AddExplicitSurface SurfaceToImplicit2 s surface)
  | UpdateQueryEngine {s : ImplicitSurfaceSet2} :
      Reachable SurfaceToImplicit2 flag0 s →
      Reachable SurfaceToImplicit2 flag0 (UpdateQueryEngine s)
  | BuildBVH {s : ImplicitSurfaceSet2} :
      Reachable SurfaceToImplicit2 flag0 s →
      Reachable SurfaceToImplicit2 flag0 (BuildBVH s)

/-- The unbounded cache holds exactly the members that are not bounded, in order. -/
def UnboundedCacheExact (s : ImplicitSurfaceSet2) : Prop :=
  s.m_unboundedSurfaces = s.m_surfaces.filter (fun surface => !surface.IsBounded)

/-- The tree that `BuildBVH` builds from a sequence of surfaces: the items with their own
bounding boxes. -/
def treeOf (items : List ImplicitSurface2) : BVH2Tree :=
  BVH2Tree.Build items (items.map (fun surface => surface.GetBoundingBox))

/-- The cached tree is current: the dirty flag is set (the next query rebuilds), or the tree
was built from exactly the bounded members of the current sequence and their boxes. -/
def TreeCurrent (s : ImplicitSurfaceSet2) : Prop :=
  s.m_bvhInvalidated = true ∨
    s.m_bvh = treeOf (s.m_surfaces.filter (fun surface => surface.IsBounded))

/-- The result reports the closest hit among the members: it is intersecting if and only
if some member has an intersecting closest intersection with the ray, and then its distance
is the minimum ray parameter over the members that have one. -/
def ReportsClosestHit (members : List ImplicitSurface2) (ray : Ray2D)
    (result : SurfaceRayIntersection2) : Prop :=
  (result.isIntersecting = true ↔
    ∃ m ∈ members, (m.ClosestIntersection ray).isIntersecting = true) ∧
  (result.isIntersecting = true →
    (∃ m ∈ members, (m.ClosestIntersection ray).isIntersecting = true ∧
      result.distance = (m.ClosestIntersection ray).distance) ∧
    ∀ m ∈ members, (m.ClosestIntersection ray).isIntersecting = true →
      result.distance ≤ (m.ClosestIntersection ray).distance)

end ImplicitSurfaceSet2

/-! ## Contracts assumed of the BVH -/

/-- Contract of `BVH2::Nearest` for trees built from surfaces and their boxes and queried
with `distanceFunc`: on an empty tree, no item and the maximum representable distance;
otherwise an item of the tree at which the distance function is minimal, with that
distance. -/
def BVH2.NearestIsMin (bvh : BVH2) : Prop :=
  ∀ (items : List ImplicitSurface2) (p : Vector2D),
    (items = [] →
      bvh.Nearest (ImplicitSurfaceSet2.treeOf items) p ImplicitSurfaceSet2.distanceFunc
        = { item := none, distance := DBL_MAX }) ∧
    (items ≠ [] → ∃ i ∈ items,
      bvh.Nearest (ImplicitSurfaceSet2.treeOf items) p ImplicitSurfaceSet2.distanceFunc
        = { item := some i, distance := i.ClosestDistance p } ∧
      ∀ j ∈ items, i.ClosestDistance p ≤ j.ClosestDistance p)

/-- Contract of `BVH2::Nearest` that also fixes how ties are broken, for trees built from
surfaces and their boxes and queried with `distanceFunc`: on an empty tree, no item and the
maximum representable distance; otherwise the item returned is the first one, in the order
of the array handed to `Build`, at which the distance function is minimal. -/
def BVH2.NearestIsFirstMin (bvh : BVH2) : Prop :=
  ∀ (items : List ImplicitSurface2) (p : Vector2D),
    (items = [] →
      bvh.Nearest (ImplicitSurfaceSet2.treeOf items) p ImplicitSurfaceSet2.distanceFunc
        = { item := none, distance := DBL_MAX }) ∧
    (∀ (pre : List ImplicitSurface2) (i : ImplicitSurface2) (post : List ImplicitSurface2),
      items = pre ++ i :: post →
      (∀ m ∈ pre, i.ClosestDistance p < m.ClosestDistance p) →
      (∀ m ∈ post, i.ClosestDistance p ≤ m.ClosestDistance p) →
      bvh.Nearest (ImplicitSurfaceSet2.treeOf items) p ImplicitSurfaceSet2.distanceFunc
        = { item := some i, distance := i.ClosestDistance p })

/-- Contract of `BVH2::ClosestIntersection` for trees built from surfaces and their boxes
and queried with `closestIntersectionTestFunc`: a hit is an item whose ray parameter is
below the maximum representable distance; without a hit, no item and the maximum
representable distance; otherwise a hit of minimal ray parameter, with that parameter. -/
def BVH2.ClosestIntersectionIsMin (bvh : BVH2) : Prop :=
  ∀ (items : List ImplicitSurface2) (ray : Ray2D),
    ((∀ j ∈ items, ¬ (j.ClosestIntersection ray).distance < DBL_MAX) →
      bvh.ClosestIntersection (ImplicitSurfaceSet2.treeOf items) ray
          ImplicitSurfaceSet2.closestIntersectionTestFunc
        = { item := none, distance := DBL_MAX }) ∧
    ((∃ j ∈ items, (j.ClosestIntersection ray).distance < DBL_MAX) → ∃ i ∈ items,
      bvh.ClosestIntersection (ImplicitSurfaceSet2.treeOf items) ray
          ImplicitSurfaceSet2.closestIntersectionTestFunc
        = { item := some i, distance := (i.ClosestIntersection ray).distance } ∧
      (i.ClosestIntersection ray).distance < DBL_MAX ∧
      ∀ j ∈ items, (i.ClosestIntersection ray).distance ≤ (j.ClosestIntersection ray).distance)

/-- Contract of `BVH2::Intersects` for trees built from surfaces and their boxes and queried
with `intersectsTestFunc`: the test is true if and only if some item of the tree intersects
the ray. -/
def BVH2.IntersectsIsAny (bvh : BVH2) : Prop :=
  ∀ (items : List ImplicitSurface2) (ray : Ray2D),
    bvh.Intersects (ImplicitSurfaceSet2.treeOf items) ray ImplicitSurfaceSet2.intersectsTestFunc
        = true ↔
      ∃ i ∈ items, i.Intersects ray = true

/-! ## A reference BVH and sample surfaces, used to evaluate the embedding -/

/-- The scan behind `BVH2.exhaustive.Nearest`: the first item is always taken, a later
one only when strictly nearer. -/
def BVH2.nearestScan (f : ImplicitSurface2 → Vector2D → Double) (p : Vector2D) :
    NearestNeighborQueryResult2 → List ImplicitSurface2 → NearestNeighborQueryResult2
  | best, [] => best
  | best, i :: rest =>
    if best.item.isNone ∨ f i p < best.distance then
      BVH2.nearestScan f p { item := some i, distance := f i p } rest
    else BVH2.nearestScan f p best rest

/-- The scan behind `BVH2.exhaustive.ClosestIntersection`: an item is taken only when its
ray parameter is strictly below the best one so far. -/
def BVH2.closestIntersectionScan (f : ImplicitSurface2 → Ray2D → Double) (ray : Ray2D) :
    ClosestIntersectionQueryResult2 → List ImplicitSurface2 → ClosestIntersectionQueryResult2
  | best, [] => best
  | best, i :: rest =>
    if f i ray < best.distance then
      BVH2.closestIntersectionScan f ray { item := some i, distance := f i ray } rest
    else BVH2.closestIntersectionScan f ray best rest

/-- Modelled from the spec: the class `BVH2` is not among the embedded sources. Section 4.4
describes its queries: the nearest-neighbour query, given a user distance function, returns
the best item and its distance, or "no item" for an empty tree (with the maximum
representable distance as sentinel, section 4.3); the ray-intersection test is a boolean;
the closest-intersection query returns the best item and its ray parameter. The model
answers each query by an exhaustive scan of the items, which is what the spatial pruning
of a BVH computes faster. -/
def BVH2.exhaustive : BVH2 where
  Nearest := fun t p f => BVH2.nearestScan f p { item := none, distance := DBL_MAX } t.items
  Intersects := fun t ray f => t.items.any (fun i => f i ray)
  ClosestIntersection := fun t ray f =>
    BVH2.closestIntersectionScan f ray { item := none, distance := DBL_MAX } t.items

/-- A computable stand-in for `Vector2D::DistanceTo` on rational coordinates: the distance
measured along the axes, which is the Euclidean distance whenever the two points lie on a
common axis-parallel line. -/
def axisDistance (a b : Vector2D) : Double := |a.x - b.x| + |a.y - b.y|

/-- A sample surface: the single point `c`, reporting `bounded` for `IsBounded`, and hit by
every ray at parameter `t` when `hit = some t` (by no ray when `hit = none`). -/
def pointSurface (c : Vector2D) (bounded : Bool) (hit : Option Double) : ImplicitSurface2 where
  IsBounded := bounded
  IsValidGeometry := true
  ClosestPoint := fun _ => c
  ClosestDistance := fun p => axisDistance c p
  ClosestNormal := fun _ => { x := 0, y := 1 }
  Intersects := fun _ => hit.isSome
  ClosestIntersection := fun ray =>
    match hit with
    | some t => { isIntersecting := true, distance := t, point := c, normal := { x := 0, y := 1 } }
    | none => { isIntersecting := false, distance := DBL_MAX, point := ray.origin,
                normal := { x := 0, y := 1 } }
  IsInside := fun _ => false
  GetBoundingBox := { lowerCorner := c, upperCorner := c }
  SignedDistance := fun p => axisDistance c p

/-- A sample adapter standing in for `SurfaceToImplicit2`: it forwards every answer and uses
the closest distance as signed distance. -/
def sampleToImplicit (surface : Surface2) : ImplicitSurface2 :=
  { surface with SignedDistance := surface.ClosestDistance }

/-- The identity transform. -/
def Transform2.identity : Transform2 := { translation := { x := 0, y := 0 }, orientation := 0 }

/-! ## The `"Solver"` lambda of the diffusion-solver binding -/

/-- The three grid classes the lambda casts to. -/
inductive GridRepresentation
  | scalar
  | collocatedVector
  | faceCentered
deriving DecidableEq, Repr

/-- A grid object as the lambda sees it: its identity and, for each of `ScalarGrid`,
`CollocatedVectorGrid` and `FaceCenteredGrid`, whether its dynamic type derives from it.
No exclusion between the three is built in. -/
structure Grid where
  id : Nat
  isScalarGrid : Bool
  isCollocatedVectorGrid : Bool
  isFaceCenteredGrid : Bool
deriving DecidableEq, Repr

/-- Whether the dynamic type of the grid derives from the class of the representation. -/
def Grid.has (g : Grid) : GridRepresentation → Bool
  | .scalar => g.isScalarGrid
  | .collocatedVector => g.isCollocatedVectorGrid
  | .faceCentered => g.isFaceCenteredGrid

/-- A `Grid2Ptr` or `Grid3Ptr`: `none` is the null pointer. -/
abbrev GridPtr := Option Grid

/-- The function `std::dynamic_pointer_cast` to the class of a representation. -/
def dynamicPointerCast (r : GridRepresentation) : GridPtr → GridPtr
  | some g => if g.has r then some g else none
  | none => none

/-- A `ScalarField2Ptr` or `ScalarField3Ptr`: the constant field the lambda builds, or a
field object of the caller, known by its identity. -/
inductive ScalarField
  | constant (value : Double)
  | ofCaller (id : Nat)
deriving DecidableEq, Repr

/-- The Python objects that matter to the lambda. -/
inductive PyObject
  | scalarField (f : ScalarField)
  | dict (entries : List (String × PyObject))
  | other

/-- The exceptions that can leave the lambda. -/
inductive Exception
  | invalid_argument (what : String)
  | cast_error
deriving DecidableEq, Repr

/-- The member `cast<ScalarFieldPtr>()` of a pybind11 object: the wrapped field when the
object is a scalar field, `cast_error` for any other object, a dict included. -/
def PyObject.castScalarFieldPtr : PyObject → Except Exception ScalarField
  | .scalarField f => .ok f
  | .dict _ => .error .cast_error
  | .other => .error .cast_error

/-- The member `contains(key)` of a `pybind11::kwargs`. -/
def kwargsContains (kwargs : List (String × PyObject)) (key : String) : Bool :=
  kwargs.any (fun entry => entry.1 == key)

/-- One invocation of `instance.Solve`: the overload chosen and the arguments. -/
structure SolveCall where
  representation : GridRepresentation
  source : Grid
  diffusionCoefficient : Double
  timeIntervalInSeconds : Double
  dest : Grid
  boundarySDF : ScalarField
  fluidSDF : ScalarField
deriving DecidableEq, Repr

/-- What one call of the lambda does: the invocations of `Solve`, in order (`Solve` is the
only callee that receives `dest`), and the exception that leaves the lambda, if any. -/
structure Outcome where
  solveCalls : List SolveCall
  raised : Option Exception
deriving DecidableEq, Repr

/-- The body shared by the two `"Solver"` lambdas, which differ in the dimension of the
types only. -/
def solverBody (source : GridPtr) (diffusionCoefficient timeIntervalInSeconds : Double)
    (dest : GridPtr) (kwargs : List (String × PyObject)) : Outcome :=
  let sourceSG := dynamicPointerCast .scalar source
  let sourceCG := dynamicPointerCast .collocatedVector source
  let sourceFG := dynamicPointerCast .faceCentered source
  let destSG := dynamicPointerCast .scalar dest
  let destCG := dynamicPointerCast .collocatedVector dest
  let destFG := dynamicPointerCast .faceCentered dest
  let boundarySDF0 : ScalarField := .constant DBL_MAX
  let fluidSDF0 : ScalarField := .constant (-DBL_MAX)
  match (if kwargsContains kwargs "boundarySDF" then (PyObject.dict kwargs).castScalarFieldPtr
         else .ok boundarySDF0) with
  | .error e => { solveCalls := [], raised := some e }
  | .ok boundarySDF =>
    match (if kwargsContains kwargs "fluidSDF" then (PyObject.dict kwargs).castScalarFieldPtr
           else .ok fluidSDF0) with
    | .error e => { solveCalls := [], raised := some e }
    | .ok fluidSDF =>
      match sourceSG, destSG with
      | some src, some dst =>
        { solveCalls := [{ representation := .scalar, source := src,
                           diffusionCoefficient := diffusionCoefficient,
                           timeIntervalInSeconds := timeIntervalInSeconds, dest := dst,
                           boundarySDF := boundarySDF, fluidSDF := fluidSDF }],
          raised := none }
      | _, _ =>
        match sourceCG, destCG with
        | some src, some dst =>
          { solveCalls := [{ representation := .collocatedVector, source := src,
                             diffusionCoefficient := diffusionCoefficient,
                             timeIntervalInSeconds := timeIntervalInSeconds, dest := dst,
                             boundarySDF := boundarySDF, fluidSDF := fluidSDF }],
            raised := none }
        | _, _ =>
          match sourceFG, destFG with
          | some src, some dst =>
            { solveCalls := [{ representation := .faceCentered, source := src,
                               diffusionCoefficient := diffusionCoefficient,
                               timeIntervalInSeconds := timeIntervalInSeconds, dest := dst,
                               boundarySDF := boundarySDF, fluidSDF := fluidSDF }],
              raised := none }
          | _, _ =>
            { solveCalls := [],
              raised := some (.invalid_argument "Grids source and dest must have same type.") }

/-- The `"Solver"` lambda of `AddGridForwardEulerDiffusionSolver2`. -/
def AddGridForwardEulerDiffusionSolver2.Solver (source : GridPtr)
    (diffusionCoefficient timeIntervalInSeconds : Double) (dest : GridPtr)
    (kwargs : List (String × PyObject)) : Outcome :=
  solverBody source diffusionCoefficient timeIntervalInSeconds dest kwargs

/-- The `"Solver"` lambda of `AddGridForwardEulerDiffusionSolver3`. -/
def AddGridForwardEulerDiffusionSolver3.Solver (source : GridPtr)
    (diffusionCoefficient timeIntervalInSeconds : Double) (dest : GridPtr)
    (kwargs : List (String × PyObject)) : Outcome :=
  solverBody source diffusionCoefficient timeIntervalInSeconds dest kwargs

/-- Source and dest share a representation: there is a class among the three that the
dynamic types of both (non-null) grids derive from. -/
def shareRepresentation (source dest : GridPtr) : Prop :=
  ∃ (r : GridRepresentation) (src dst : Grid),
    source = some src ∧ dest = some dst ∧ src.has r = true ∧ dst.has r = true

/-- The exception is the invalid-argument one. -/
def Exception.isInvalidArgument : Exception → Bool
  | .invalid_argument _ => true
  | .cast_error => false

/-! ## The iteration primitive `ForEachIndex` -/

/-- The loop `for (i = first; i < first + count; ++i) func(i)`: the callback acts on a state,
`i` is the index of the next invocation and `count` the number of invocations left. -/
def ForEachIndex.loop {σ : Type} (func : Nat → σ → σ) : Nat → Nat → σ → σ
  | _, 0, state => state
  | i, count + 1, state => ForEachIndex.loop func (i + 1) count (func i state)

/-- Modelled from the spec: the function template `ForEachIndex` is not among the embedded
sources, which only hold two tests that call it. Section 4.1 says that `ForEachIndex(n, f)`
invokes `f` for every index in `[0, n)` in ascending order, single-threaded. The model is
the sequential loop from index 0 over `n` invocations; what the callback captures by
reference is the state it transforms. The index never exceeds `n`, so an index of type
`size_t` does not wrap and natural numbers stand for it. -/
def ForEachIndex {σ : Type} (n : Nat) (func : Nat → σ → σ) (state : σ) : σ :=
  ForEachIndex.loop func 0 n state

/-- A callback together with a record of its invocations: each invocation runs the callback
and appends the index it received to the record. -/
def ForEachIndex.traced {σ : Type} (func : Nat → σ → σ) (i : Nat) (st : σ × List Nat) :
    σ × List Nat :=
  (func i st.1, st.2 ++ [i])

/-- The lambda of `TEST(ArrayView1, ForEachIndex)` and `TEST(ConstArrayView1, ForEachIndex)`:
`EXPECT_EQ(cnt, i); ++cnt;`. The state is the captured counter `cnt` and whether every
expectation so far has held. -/
def ForEachIndex.testLambda (i : Nat) (st : Nat × Bool) : Nat × Bool :=
  (st.1 + 1, st.2 && st.1 == i)

/-! ## Sample objects -/

namespace Sample

/-- The query point of the samples. -/
def p0 : Vector2D := { x := 0, y := 0 }

/-- A bounded surface at distance 1 of `p0`. -/
def near : ImplicitSurface2 := pointSurface { x := 1, y := 0 } true (some 1)

/-- A bounded surface at distance 5 of `p0`. -/
def far : ImplicitSurface2 := pointSurface { x := 5, y := 0 } true (some 5)

/-- An unbounded surface at distance 3 of `p0`. -/
def wide : ImplicitSurface2 := pointSurface { x := 0, y := 3 } false (some 3)

/-- A ray from `p0` along the x axis. -/
def ray0 : Ray2D := { origin := p0, direction := { x := 1, y := 0 } }

/-- A set constructed from `near` alone, then queried once (the tree is built from `near`
and the dirty flag is clear), then assigned from a set that holds `far` alone. -/
def staleAfterAssign : ImplicitSurfaceSet2 :=
  ((ImplicitSurfaceSet2.ofImplicit true [near] Transform2.identity false).ClosestDistanceLocal
      axisDistance BVH2.exhaustive p0).2.assign
    (ImplicitSurfaceSet2.ofImplicit true [far] Transform2.identity false)

/-- A set constructed from `near` alone, then queried once, then assigned from a set that
holds no surface. -/
def staleEmptied : ImplicitSurfaceSet2 :=
  ((ImplicitSurfaceSet2.ofImplicit true [near] Transform2.identity false).ClosestDistanceLocal
      axisDistance BVH2.exhaustive p0).2.assign
    (ImplicitSurfaceSet2.ofImplicit true [] Transform2.identity false)

/-- A bounded surface at distance 7 of `p0` that no ray hits. -/
def unhit : ImplicitSurface2 := pointSurface { x := 7, y := 0 } true none

/-- A set constructed from `near` alone, then queried once, then assigned from a set that
holds `unhit` alone. -/
def staleForRay : ImplicitSurfaceSet2 :=
  ((ImplicitSurfaceSet2.ofImplicit true [near] Transform2.identity false).ClosestDistanceLocal
      axisDistance BVH2.exhaustive p0).2.assign
    (ImplicitSurfaceSet2.ofImplicit true [unhit] Transform2.identity false)

/-- A stand-in for `Ray2D::PointAt` on rational coordinates. -/
def pointAt (ray : Ray2D) (t : Double) : Vector2D :=
  { x := ray.origin.x + t * ray.direction.x, y := ray.origin.y + t * ray.direction.y }

/-- A stand-in for a default-constructed `SurfaceRayIntersection2`. -/
def noHit : SurfaceRayIntersection2 :=
  { isIntersecting := false, distance := DBL_MAX, point := { x := 0, y := 0 },
    normal := { x := 0, y := 0 } }

/-- A scalar grid. -/
def scalarGrid : Grid :=
  { id := 1, isScalarGrid := true, isCollocatedVectorGrid := false, isFaceCenteredGrid := false }

/-- A face-centered grid. -/
def faceGrid : Grid :=
  { id := 2, isScalarGrid := false, isCollocatedVectorGrid := false, isFaceCenteredGrid := true }

/-- An unbounded surface at distance 1 of `p0`, the same distance as `near`, with a closest
point and a normal that differ from those of `near`. -/
def tied : ImplicitSurface2 :=
  { pointSurface { x := 0, y := 1 } false (some 1) with
    ClosestNormal := fun _ => { x := -1, y := 0 } }

/-- A set constructed from the unbounded `tied` followed by the bounded `near`: the two
members are at the same distance of `p0` and the unbounded one was inserted first. -/
def tiedSet : ImplicitSurfaceSet2 :=
  ImplicitSurfaceSet2.ofImplicit true [tied, near] Transform2.identity false

/-- A caller's scalar field. -/
def callerField : ScalarField := ScalarField.ofCaller 7

/-- A bounded surface whose signed distance is `+infinity` at every point. -/
def atInfinity : ImplicitSurface2 :=
  { pointSurface { x := 9, y := 0 } true none with SignedDistance := fun _ => DBL_INF }

/-- A set constructed from `atInfinity` alone. -/
def infiniteSet : ImplicitSurfaceSet2 :=
  ImplicitSurfaceSet2.ofImplicit true [atInfinity] Transform2.identity false

/-- An unbounded surface with `p0` inside: its signed distance is -2 at every point. -/
def inside : ImplicitSurface2 :=
  { pointSurface { x := 0, y := 2 } false none with SignedDistance := fun _ => -2 }

/-- A set of four members, bounded and unbounded in turn, with signed distances 5, -2, 1
and 3 at `p0`: the minimum is that of the second member, an unbounded one. -/
def mixedSet : ImplicitSurfaceSet2 :=
  ImplicitSurfaceSet2.ofImplicit true [far, inside, near, wide] Transform2.identity false

/-- A bounded surface at distance 1 of `p0`, the same distance as `near` and `tied`, with a
closest point and a normal of its own. -/
def nearTwin : ImplicitSurface2 :=
  { pointSurface { x := -1, y := 0 } true (some 1) with
    ClosestNormal := fun _ => { x := 0, y := -1 } }

/-- A set constructed from the unbounded `tied`, then the bounded `near`, then the bounded
`nearTwin`: three members at the same distance 1 of `p0`, with three different closest
points and three different normals. -/
def tiedBoundedSet : ImplicitSurfaceSet2 :=
  ImplicitSurfaceSet2.ofImplicit true [tied, near, nearTwin] Transform2.identity false

/-- An unbounded surface at distance 3 of `p0`, with a normal of its own. -/
def wideFirst : ImplicitSurface2 :=
  { pointSurface { x := 0, y := 3 } false (some 3) with
    ClosestNormal := fun _ => { x := -1, y := 0 } }

/-- An unbounded surface at distance 3 of `p0`, with another closest point and another
normal than `wideFirst`. -/
def wideSecond : ImplicitSurface2 :=
  { pointSurface { x := 3, y := 0 } false (some 3) with
    ClosestNormal := fun _ => { x := 0, y := -1 } }

/-- A set constructed from the bounded `far` (distance 5), then the unbounded `wideFirst`
and `wideSecond`, both at the minimum distance 3 of `p0`. -/
def tiedUnboundedSet : ImplicitSurfaceSet2 :=
  ImplicitSurfaceSet2.ofImplicit true [far, wideFirst, wideSecond] Transform2.identity false

end Sample

end CubbyFlow

/-! # Theorems -/

namespace CubbyFlow

namespace ImplicitSurfaceSet2

/-! ## Loops in closed form -/

theorem IsBounded_loop_eq_none_iff (l : List ImplicitSurface2) :
    IsBounded.loop l = none ↔ ∀ surface ∈ l, surface.IsBounded = true := by
  induction l with
  | nil => simp [IsBounded.loop]
  | cons a rest ih =>
    cases h : a.IsBounded <;> simp [IsBounded.loop, h, ih]

theorem IsBounded_loop_ne_some_true (l : List ImplicitSurface2) :
    IsBounded.loop l ≠ some true := by
  induction l with
  | nil => simp [IsBounded.loop]
  | cons a rest ih =>
    cases h : a.IsBounded <;> simp [IsBounded.loop, h, ih]

theorem collectBounded_eq (l : List ImplicitSurface2) :
    collectBounded l =
      (l.filter (fun surface => surface.IsBounded),
       (l.filter (fun surface => surface.IsBounded)).map (fun surface => surface.GetBoundingBox)) := by
  induction l with
  | nil => rfl
  | cons a rest ih =>
    cases h : a.IsBounded <;> simp [collectBounded, ih, h]

theorem appendUnbounded_eq (acc l : List ImplicitSurface2) :
    appendUnbounded acc l = acc ++ l.filter (fun surface => !surface.IsBounded) := by
  induction l generalizing acc with
  | nil => simp [appendUnbounded]
  | cons a rest ih =>
    cases h : a.IsBounded <;> simp [appendUnbounded, ih, h]

theorem BuildBVH_m_surfaces (s : ImplicitSurfaceSet2) :
    (BuildBVH s).m_surfaces = s.m_surfaces := by
  unfold BuildBVH
  split <;> rfl

theorem BuildBVH_m_unboundedSurfaces (s : ImplicitSurfaceSet2) :
    (BuildBVH s).m_unboundedSurfaces = s.m_unboundedSurfaces := by
  unfold BuildBVH
  split <;> rfl

theorem BuildBVH_m_bvhInvalidated (s : ImplicitSurfaceSet2) :
    (BuildBVH s).m_bvhInvalidated = false := by
  unfold BuildBVH
  split
  · rfl
  · simpa using ‹¬ s.m_bvhInvalidated = true›

theorem BuildBVH_m_bvh_of_dirty (s : ImplicitSurfaceSet2) (h : s.m_bvhInvalidated = true) :
    (BuildBVH s).m_bvh = treeOf (s.m_surfaces.filter (fun surface => surface.IsBounded)) := by
  unfold BuildBVH
  rw [if_pos h, collectBounded_eq]
  rfl

theorem BuildBVH_m_bvh_of_clean (s : ImplicitSurfaceSet2) (h : s.m_bvhInvalidated = false) :
    (BuildBVH s).m_bvh = s.m_bvh := by
  unfold BuildBVH
  rw [if_neg (by simp [h])]

theorem BuildBVH_m_bvh_of_treeCurrent (s : ImplicitSurfaceSet2) (h : TreeCurrent s) :
    (BuildBVH s).m_bvh = treeOf (s.m_surfaces.filter (fun surface => surface.IsBounded)) := by
  cases hd : s.m_bvhInvalidated with
  | true => exact BuildBVH_m_bvh_of_dirty s hd
  | false =>
    rw [BuildBVH_m_bvh_of_clean s hd]
    rcases h with h | h
    · rw [hd] at h; cases h
    · exact h

/-! ## The unbounded cache -/

theorem UnboundedCacheExact.AddSurface {s : ImplicitSurfaceSet2} (h : UnboundedCacheExact s)
    (surface : ImplicitSurface2) : UnboundedCacheExact (AddSurface s surface) := by
  unfold UnboundedCacheExact at *
  cases hb : surface.IsBounded <;> simp [ImplicitSurfaceSet2.AddSurface, InvalidateBVH, hb, h]

theorem UnboundedCacheExact.foldl_AddExplicitSurface (SurfaceToImplicit2 : Surface2 → ImplicitSurface2)
    (surfaces : List Surface2) {s : ImplicitSurfaceSet2} (h : UnboundedCacheExact s) :
    UnboundedCacheExact (surfaces.foldl (AddExplicitSurface SurfaceToImplicit2) s) := by
  induction surfaces generalizing s with
  | nil => exact h
  | cons a rest ih => exact ih (h.AddSurface (SurfaceToImplicit2 a))

theorem UnboundedCacheExact.BuildBVH {s : ImplicitSurfaceSet2} (h : UnboundedCacheExact s) :
    UnboundedCacheExact (BuildBVH s) := by
  unfold UnboundedCacheExact at *
  rw [BuildBVH_m_unboundedSurfaces, BuildBVH_m_surfaces]
  exact h

theorem Reachable.unboundedCacheExact {SurfaceToImplicit2 : Surface2 → ImplicitSurface2}
    {flag0 : Bool} {s : ImplicitSurfaceSet2} (h : Reachable SurfaceToImplicit2 flag0 s) :
    UnboundedCacheExact s := by
  induction h with
  | ofImplicit surfaces tr fl =>
    simp [UnboundedCacheExact, ImplicitSurfaceSet2.ofImplicit, InvalidateBVH, defaultInit,
      appendUnbounded_eq]
  | ofExplicit surfaces tr fl =>
    exact UnboundedCacheExact.foldl_AddExplicitSurface _ _
      (by simp [UnboundedCacheExact, defaultInit])
  | copyCtor _ ih => exact ih
  | moveCtor _ ih => exact ih
  | assign _ _ _ ih => exact ih
  | AddSurface surface _ ih => exact ih.AddSurface surface
  | AddExplicitSurface surface _ ih => exact ih.AddSurface _
  | UpdateQueryEngine _ ih =>
    have : UnboundedCacheExact (InvalidateBVH _) := ih
    exact this.BuildBVH
  | BuildBVH _ ih => exact ih.BuildBVH

/-! ## The scans over the unbounded cache -/

theorem ClosestPointLocal_loop_append (DistanceTo : Vector2D → Vector2D → Double)
    (p : Vector2D) (acc : Double × Vector2D) (l₁ l₂ : List ImplicitSurface2) :
    ClosestPointLocal.loop DistanceTo p acc (l₁ ++ l₂) =
      ClosestPointLocal.loop DistanceTo p (ClosestPointLocal.loop DistanceTo p acc l₁) l₂ := by
  induction l₁ generalizing acc with
  | nil => rfl
  | cons a rest ih =>
    obtain ⟨d, r⟩ := acc
    simp only [List.cons_append, ClosestPointLocal.loop]
    split <;> exact ih _

theorem ClosestNormalLocal_loop_append (DistanceTo : Vector2D → Vector2D → Double)
    (p : Vector2D) (acc : Double × Vector2D) (l₁ l₂ : List ImplicitSurface2) :
    ClosestNormalLocal.loop DistanceTo p acc (l₁ ++ l₂) =
      ClosestNormalLocal.loop DistanceTo p (ClosestNormalLocal.loop DistanceTo p acc l₁) l₂ := by
  induction l₁ generalizing acc with
  | nil => rfl
  | cons a rest ih =>
    obtain ⟨d, r⟩ := acc
    simp only [List.cons_append, ClosestNormalLocal.loop]
    split <;> exact ih _

theorem ClosestPointLocal_loop_fst (DistanceTo : Vector2D → Vector2D → Double)
    (p : Vector2D) (acc : Double × Vector2D) (l : List ImplicitSurface2) :
    (ClosestPointLocal.loop DistanceTo p acc l).1 =
      ClosestDistanceLocal.loop DistanceTo p acc.1 l := by
  induction l generalizing acc with
  | nil => rfl
  | cons a rest ih =>
    obtain ⟨d, r⟩ := acc
    simp only [ClosestPointLocal.loop, ClosestDistanceLocal.loop]
    split <;> exact ih _

theorem ClosestNormalLocal_loop_fst (DistanceTo : Vector2D → Vector2D → Double)
    (p : Vector2D) (acc : Double × Vector2D) (l : List ImplicitSurface2) :
    (ClosestNormalLocal.loop DistanceTo p acc l).1 =
      ClosestDistanceLocal.loop DistanceTo p acc.1 l := by
  induction l generalizing acc with
  | nil => rfl
  | cons a rest ih =>
    obtain ⟨d, r⟩ := acc
    simp only [ClosestNormalLocal.loop, ClosestDistanceLocal.loop]
    split <;> exact ih _

theorem ClosestDistanceLocal_loop_le_init (DistanceTo : Vector2D → Vector2D → Double)
    (p : Vector2D) (d : Double) (l : List ImplicitSurface2) :
    ClosestDistanceLocal.loop DistanceTo p d l ≤ d := by
  induction l generalizing d with
  | nil => exact le_refl _
  | cons a rest ih =>
    simp only [ClosestDistanceLocal.loop]
    split
    · exact le_trans (ih _) (le_of_lt ‹_›)
    · exact ih _

theorem ClosestDistanceLocal_loop_le_mem (DistanceTo : Vector2D → Vector2D → Double)
    (p : Vector2D) (d : Double) (l : List ImplicitSurface2) :
    ∀ m ∈ l, ClosestDistanceLocal.loop DistanceTo p d l ≤ DistanceTo (m.ClosestPoint p) p := by
  induction l generalizing d with
  | nil => simp
  | cons a rest ih =>
    intro m hm
    simp only [ClosestDistanceLocal.loop]
    rcases List.mem_cons.mp hm with rfl | hm
    · split
      · exact ClosestDistanceLocal_loop_le_init _ _ _ _
      · exact le_trans (ClosestDistanceLocal_loop_le_init _ _ _ _) (not_lt.mp ‹_›)
    · split <;> exact ih _ m hm

theorem ClosestDistanceLocal_loop_eq_init_or_mem (DistanceTo : Vector2D → Vector2D → Double)
    (p : Vector2D) (d : Double) (l : List ImplicitSurface2) :
    ClosestDistanceLocal.loop DistanceTo p d l = d ∨
      ∃ m ∈ l, ClosestDistanceLocal.loop DistanceTo p d l = DistanceTo (m.ClosestPoint p) p := by
  induction l generalizing d with
  | nil => exact Or.inl rfl
  | cons a rest ih =>
    simp only [ClosestDistanceLocal.loop]
    split
    · rcases ih (DistanceTo (a.ClosestPoint p) p) with h | ⟨m, hm, h⟩
      · exact Or.inr ⟨a, List.mem_cons_self _ _, h⟩
      · exact Or.inr ⟨m, List.mem_cons_of_mem _ hm, h⟩
    · rcases ih d with h | ⟨m, hm, h⟩
      · exact Or.inl h
      · exact Or.inr ⟨m, List.mem_cons_of_mem _ hm, h⟩

theorem ClosestPointLocal_loop_eq_self (DistanceTo : Vector2D → Vector2D → Double)
    (p : Vector2D) (acc : Double × Vector2D) (l : List ImplicitSurface2)
    (h : ∀ m ∈ l, ¬ DistanceTo (m.ClosestPoint p) p < acc.1) :
    ClosestPointLocal.loop DistanceTo p acc l = acc := by
  induction l with
  | nil => rfl
  | cons a rest ih =>
    obtain ⟨d, r⟩ := acc
    simp only [ClosestPointLocal.loop]
    rw [if_neg (h a (List.mem_cons_self _ _))]
    exact ih (fun m hm => h m (List.mem_cons_of_mem _ hm))

theorem ClosestNormalLocal_loop_eq_self (DistanceTo : Vector2D → Vector2D → Double)
    (p : Vector2D) (acc : Double × Vector2D) (l : List ImplicitSurface2)
    (h : ∀ m ∈ l, ¬ DistanceTo (m.ClosestPoint p) p < acc.1) :
    ClosestNormalLocal.loop DistanceTo p acc l = acc := by
  induction l with
  | nil => rfl
  | cons a rest ih =>
    obtain ⟨d, r⟩ := acc
    simp only [ClosestNormalLocal.loop]
    rw [if_neg (h a (List.mem_cons_self _ _))]
    exact ih (fun m hm => h m (List.mem_cons_of_mem _ hm))

theorem ClosestNormalLocal_loop_snoc_of_lt (DistanceTo : Vector2D → Vector2D → Double)
    (p : Vector2D) (acc : Double × Vector2D) (l : List ImplicitSurface2)
    (surface : ImplicitSurface2)
    (h : DistanceTo (surface.ClosestPoint p) p < ClosestDistanceLocal.loop DistanceTo p acc.1 l) :
    (ClosestNormalLocal.loop DistanceTo p acc (l ++ [surface])).2 = surface.ClosestNormal p := by
  rw [ClosestNormalLocal_loop_append]
  rw [← ClosestNormalLocal_loop_fst] at h
  generalize ClosestNormalLocal.loop DistanceTo p acc l = a at h
  obtain ⟨d, r⟩ := a
  simp only [ClosestNormalLocal.loop]
  rw [if_pos h]

/-! ## The closest-* queries on a current tree -/

theorem ClosestPointLocal_fst_of_treeCurrent (DistanceTo : Vector2D → Vector2D → Double)
    (bvh : BVH2) (s : ImplicitSurfaceSet2) (p : Vector2D) (h : TreeCurrent s) :
    (ClosestPointLocal DistanceTo bvh s p).1 =
      (ClosestPointLocal.loop DistanceTo p
        ((bvh.Nearest (treeOf (s.m_surfaces.filter (fun surface => surface.IsBounded))) p
            distanceFunc).distance,
         match (bvh.Nearest (treeOf (s.m_surfaces.filter (fun surface => surface.IsBounded))) p
            distanceFunc).item with
         | some item => item.ClosestPoint p
         | none => { x := DBL_MAX, y := DBL_MAX })
        s.m_unboundedSurfaces).2 := by
  simp only [ClosestPointLocal, BuildBVH_m_bvh_of_treeCurrent s h, BuildBVH_m_unboundedSurfaces]

theorem ClosestNormalLocal_fst_of_treeCurrent (DistanceTo : Vector2D → Vector2D → Double)
    (bvh : BVH2) (s : ImplicitSurfaceSet2) (p : Vector2D) (h : TreeCurrent s) :
    (ClosestNormalLocal DistanceTo bvh s p).1 =
      (ClosestNormalLocal.loop DistanceTo p
        ((bvh.Nearest (treeOf (s.m_surfaces.filter (fun surface => surface.IsBounded))) p
            distanceFunc).distance,
         match (bvh.Nearest (treeOf (s.m_surfaces.filter (fun surface => surface.IsBounded))) p
            distanceFunc).item with
         | some item => item.ClosestNormal p
         | none => { x := 1, y := 0 })
        s.m_unboundedSurfaces).2 := by
  simp only [ClosestNormalLocal, BuildBVH_m_bvh_of_treeCurrent s h, BuildBVH_m_unboundedSurfaces]

theorem ClosestDistanceLocal_fst_of_treeCurrent (DistanceTo : Vector2D → Vector2D → Double)
    (bvh : BVH2) (s : ImplicitSurfaceSet2) (p : Vector2D) (h : TreeCurrent s) :
    (ClosestDistanceLocal DistanceTo bvh s p).1 =
      ClosestDistanceLocal.loop DistanceTo p
        (bvh.Nearest (treeOf (s.m_surfaces.filter (fun surface => surface.IsBounded))) p
            distanceFunc).distance
        s.m_unboundedSurfaces := by
  simp only [ClosestDistanceLocal, BuildBVH_m_bvh_of_treeCurrent s h,
    BuildBVH_m_unboundedSurfaces]

theorem lt_Nearest_distance {bvh : BVH2} (hbvh : bvh.NearestIsMin)
    (items : List ImplicitSurface2) (surface : ImplicitSurface2) (p : Vector2D)
    (hnear : ∀ m ∈ items, surface.ClosestDistance p < m.ClosestDistance p)
    (hfin : surface.ClosestDistance p < DBL_MAX) :
    surface.ClosestDistance p < (bvh.Nearest (treeOf items) p distanceFunc).distance := by
  by_cases hnil : items = []
  · rw [(hbvh items p).1 hnil]
    exact hfin
  · obtain ⟨i, hi, heq, -⟩ := (hbvh items p).2 hnil
    rw [heq]
    exact hnear i hi

theorem nearestScan_spec (f : ImplicitSurface2 → Vector2D → Double) (p : Vector2D)
    (b : ImplicitSurface2) (l : List ImplicitSurface2) :
    ∃ i ∈ b :: l,
      BVH2.nearestScan f p { item := some b, distance := f b p } l
        = { item := some i, distance := f i p } ∧
      ∀ j ∈ b :: l, f i p ≤ f j p := by
  induction l generalizing b with
  | nil => exact ⟨b, by simp, rfl, by simp⟩
  | cons a rest ih =>
    simp only [BVH2.nearestScan, Option.isNone_some, Bool.false_eq_true, false_or]
    split
    · rename_i hlt
      obtain ⟨i, hi, heq, hmin⟩ := ih a
      refine ⟨i, List.mem_cons_of_mem _ hi, heq, ?_⟩
      intro j hj
      rcases List.mem_cons.mp hj with rfl | hj
      · exact le_of_lt (lt_of_le_of_lt (hmin a (List.mem_cons_self _ _)) hlt)
      · exact hmin j hj
    · rename_i hnlt
      obtain ⟨i, hi, heq, hmin⟩ := ih b
      refine ⟨i, ?_, heq, ?_⟩
      · rcases List.mem_cons.mp hi with rfl | hi
        · exact List.mem_cons_self _ _
        · exact List.mem_cons_of_mem _ (List.mem_cons_of_mem _ hi)
      · intro j hj
        rcases List.mem_cons.mp hj with rfl | hj
        · exact hmin j (List.mem_cons_self _ _)
        · rcases List.mem_cons.mp hj with rfl | hj
          · exact le_trans (hmin b (List.mem_cons_self _ _)) (not_lt.mp hnlt)
          · exact hmin j (List.mem_cons_of_mem _ hj)

theorem exhaustive_NearestIsMin : BVH2.exhaustive.NearestIsMin := by
  intro items p
  constructor
  · intro h
    subst h
    rfl
  · intro h
    cases items with
    | nil => exact absurd rfl h
    | cons a rest =>
      obtain ⟨i, hi, heq, hmin⟩ := nearestScan_spec distanceFunc p a rest
      refine ⟨i, hi, ?_, hmin⟩
      simpa [BVH2.exhaustive, treeOf, BVH2Tree.Build, BVH2.nearestScan] using heq

/-! ## The scan of `SignedDistanceLocal` -/

theorem SignedDistanceLocal_loop_le_init (p : Vector2D) (sdf : Double)
    (l : List ImplicitSurface2) : SignedDistanceLocal.loop p sdf l ≤ sdf := by
  induction l generalizing sdf with
  | nil => exact le_refl _
  | cons a rest ih =>
    simp only [SignedDistanceLocal.loop]
    refine le_trans (ih _) ?_
    unfold stdMin
    split
    · exact le_of_lt ‹_›
    · exact le_refl _

theorem SignedDistanceLocal_loop_le_mem (p : Vector2D) (sdf : Double)
    (l : List ImplicitSurface2) :
    ∀ m ∈ l, SignedDistanceLocal.loop p sdf l ≤ m.SignedDistance p := by
  induction l generalizing sdf with
  | nil => simp
  | cons a rest ih =>
    intro m hm
    simp only [SignedDistanceLocal.loop]
    rcases List.mem_cons.mp hm with rfl | hm
    · refine le_trans (SignedDistanceLocal_loop_le_init _ _ _) ?_
      unfold stdMin
      split
      · exact le_refl _
      · exact not_lt.mp ‹_›
    · exact ih _ m hm

theorem SignedDistanceLocal_loop_eq_init_or_mem (p : Vector2D) (sdf : Double)
    (l : List ImplicitSurface2) :
    SignedDistanceLocal.loop p sdf l = sdf ∨
      ∃ m ∈ l, SignedDistanceLocal.loop p sdf l = m.SignedDistance p := by
  induction l generalizing sdf with
  | nil => exact Or.inl rfl
  | cons a rest ih =>
    simp only [SignedDistanceLocal.loop]
    rcases ih (stdMin sdf (a.SignedDistance p)) with h | ⟨m, hm, h⟩
    · unfold stdMin at h
      split at h
      · exact Or.inr ⟨a, List.mem_cons_self _ _, by unfold stdMin; rw [if_pos ‹_›]; exact h⟩
      · exact Or.inl (by unfold stdMin; rw [if_neg ‹_›]; exact h)
    · exact Or.inr ⟨m, List.mem_cons_of_mem _ hm, h⟩

/-- On a state whose tree is current and whose unbounded cache is exact, with a BVH that
meets the nearest contract and members whose `ClosestDistance` is the distance to their
`ClosestPoint`, `ClosestDistanceLocal` is the minimum of `ClosestDistance` over all members
(some member being at a distance a double can hold). -/
theorem ClosestDistanceLocal_is_min_of_treeCurrent (DistanceTo : Vector2D → Vector2D → Double)
    (bvh : BVH2) (s : ImplicitSurfaceSet2) (p : Vector2D)
    (hcache : UnboundedCacheExact s) (hcur : TreeCurrent s) (hbvh : bvh.NearestIsMin)
    (hdist : ∀ m ∈ s.m_surfaces, DistanceTo (m.ClosestPoint p) p = m.ClosestDistance p)
    (hfin : ∃ m ∈ s.m_surfaces, m.ClosestDistance p ≤ DBL_MAX) :
    (∃ m ∈ s.m_surfaces, (ClosestDistanceLocal DistanceTo bvh s p).1 = m.ClosestDistance p) ∧
    ∀ m ∈ s.m_surfaces, (ClosestDistanceLocal DistanceTo bvh s p).1 ≤ m.ClosestDistance p := by
  rw [ClosestDistanceLocal_fst_of_treeCurrent _ _ _ _ hcur]
  have hU : ∀ m ∈ s.m_unboundedSurfaces, m ∈ s.m_surfaces := by
    intro m hm
    rw [hcache] at hm
    exact (List.mem_filter.mp hm).1
  have hle : ∀ m ∈ s.m_surfaces,
      ClosestDistanceLocal.loop DistanceTo p
        (bvh.Nearest (treeOf (s.m_surfaces.filter (fun surface => surface.IsBounded))) p
          distanceFunc).distance s.m_unboundedSurfaces ≤ m.ClosestDistance p := by
    intro m hm
    cases hb : m.IsBounded with
    | true =>
      have hmB : m ∈ s.m_surfaces.filter (fun surface => surface.IsBounded) :=
        List.mem_filter.mpr ⟨hm, hb⟩
      obtain ⟨i, -, heq, hmin⟩ := (hbvh _ p).2 (List.ne_nil_of_mem hmB)
      refine le_trans (ClosestDistanceLocal_loop_le_init _ _ _ _) ?_
      rw [heq]
      exact hmin m hmB
    | false =>
      have hmU : m ∈ s.m_unboundedSurfaces := by
        rw [hcache]
        exact List.mem_filter.mpr ⟨hm, by simp [hb]⟩
      rw [← hdist m hm]
      exact ClosestDistanceLocal_loop_le_mem _ _ _ _ m hmU
  refine ⟨?_, hle⟩
  rcases ClosestDistanceLocal_loop_eq_init_or_mem DistanceTo p
    (bvh.Nearest (treeOf (s.m_surfaces.filter (fun surface => surface.IsBounded))) p
      distanceFunc).distance s.m_unboundedSurfaces with h | ⟨m, hm, h⟩
  · by_cases hnil : s.m_surfaces.filter (fun surface => surface.IsBounded) = []
    · obtain ⟨m0, hm0, hfin0⟩ := hfin
      refine ⟨m0, hm0, le_antisymm (hle m0 hm0) ?_⟩
      rw [h, (hbvh _ p).1 hnil]
      exact hfin0
    · obtain ⟨i, hi, heq, -⟩ := (hbvh _ p).2 hnil
      refine ⟨i, (List.mem_filter.mp hi).1, ?_⟩
      rw [h, heq]
  · exact ⟨m, hU m hm, by rw [h, hdist m (hU m hm)]⟩

/-- On a set with no surfaces at all whose tree is current, with a BVH that returns no item
and the maximum representable double on the empty tree, `ClosestDistanceLocal` returns the
maximum representable double and `ClosestNormalLocal` returns (1, 0). -/
theorem closest_queries_empty_of_treeCurrent (DistanceTo : Vector2D → Vector2D → Double)
    (bvh : BVH2) (s : ImplicitSurfaceSet2) (p : Vector2D)
    (hsurf : s.m_surfaces = []) (hunb : s.m_unboundedSurfaces = []) (hcur : TreeCurrent s)
    (hbvh : bvh.Nearest (treeOf []) p distanceFunc = { item := none, distance := DBL_MAX }) :
    (ClosestDistanceLocal DistanceTo bvh s p).1 = DBL_MAX ∧
    (ClosestNormalLocal DistanceTo bvh s p).1 = { x := 1, y := 0 } := by
  rw [ClosestDistanceLocal_fst_of_treeCurrent _ _ _ _ hcur,
    ClosestNormalLocal_fst_of_treeCurrent _ _ _ _ hcur, hsurf, hunb]
  simp only [List.filter_nil, ClosestDistanceLocal.loop, ClosestNormalLocal.loop, hbvh,
    and_self]

/-! ## The closest-intersection query on a current tree -/

theorem ClosestIntersectionLocal_loop_distance_le_init (ray : Ray2D)
    (r : SurfaceRayIntersection2) (l : List ImplicitSurface2) :
    (ClosestIntersectionLocal.loop ray r l).distance ≤ r.distance := by
  induction l generalizing r with
  | nil => exact le_refl _
  | cons a rest ih =>
    simp only [ClosestIntersectionLocal.loop]
    split
    · exact le_trans (ih _) (le_of_lt ‹_›)
    · exact ih _

theorem ClosestIntersectionLocal_loop_distance_le_mem (ray : Ray2D)
    (r : SurfaceRayIntersection2) (l : List ImplicitSurface2) :
    ∀ m ∈ l, (ClosestIntersectionLocal.loop ray r l).distance
      ≤ (m.ClosestIntersection ray).distance := by
  induction l generalizing r with
  | nil => simp
  | cons a rest ih =>
    intro m hm
    simp only [ClosestIntersectionLocal.loop]
    rcases List.mem_cons.mp hm with rfl | hm
    · split
      · exact ClosestIntersectionLocal_loop_distance_le_init _ _ _
      · exact le_trans (ClosestIntersectionLocal_loop_distance_le_init _ _ _) (not_lt.mp ‹_›)
    · split <;> exact ih _ m hm

theorem ClosestIntersectionLocal_loop_eq_init_or_mem (ray : Ray2D)
    (r : SurfaceRayIntersection2) (l : List ImplicitSurface2) :
    ClosestIntersectionLocal.loop ray r l = r ∨
      ∃ m ∈ l, ClosestIntersectionLocal.loop ray r l = m.ClosestIntersection ray ∧
        (m.ClosestIntersection ray).distance < r.distance := by
  induction l generalizing r with
  | nil => exact Or.inl rfl
  | cons a rest ih =>
    simp only [ClosestIntersectionLocal.loop]
    split
    · rename_i hlt
      rcases ih (a.ClosestIntersection ray) with h | ⟨m, hm, h, hd⟩
      · exact Or.inr ⟨a, List.mem_cons_self _ _, h, hlt⟩
      · exact Or.inr ⟨m, List.mem_cons_of_mem _ hm, h, lt_trans hd hlt⟩
    · rcases ih r with h | ⟨m, hm, h, hd⟩
      · exact Or.inl h
      · exact Or.inr ⟨m, List.mem_cons_of_mem _ hm, h, hd⟩

theorem ClosestIntersectionLocal_fst_of_treeCurrent (PointAt : Ray2D → Double → Vector2D)
    (bvh : BVH2) (result0 : SurfaceRayIntersection2) (s : ImplicitSurfaceSet2) (ray : Ray2D)
    (h : TreeCurrent s) :
    (ClosestIntersectionLocal PointAt bvh result0 s ray).1 =
      ClosestIntersectionLocal.loop ray
        (match (bvh.ClosestIntersection
            (treeOf (s.m_surfaces.filter (fun surface => surface.IsBounded))) ray
            closestIntersectionTestFunc).item with
          | some item =>
            { isIntersecting := (bvh.ClosestIntersection
                (treeOf (s.m_surfaces.filter (fun surface => surface.IsBounded))) ray
                closestIntersectionTestFunc).item.isSome,
              distance := (bvh.ClosestIntersection
                (treeOf (s.m_surfaces.filter (fun surface => surface.IsBounded))) ray
                closestIntersectionTestFunc).distance,
              point := PointAt ray (bvh.ClosestIntersection
                (treeOf (s.m_surfaces.filter (fun surface => surface.IsBounded))) ray
                closestIntersectionTestFunc).distance,
              normal := item.ClosestNormal (PointAt ray (bvh.ClosestIntersection
                (treeOf (s.m_surfaces.filter (fun surface => surface.IsBounded))) ray
                closestIntersectionTestFunc).distance) }
          | none =>
            { isIntersecting := (bvh.ClosestIntersection
                (treeOf (s.m_surfaces.filter (fun surface => surface.IsBounded))) ray
                closestIntersectionTestFunc).item.isSome,
              distance := (bvh.ClosestIntersection
                (treeOf (s.m_surfaces.filter (fun surface => surface.IsBounded))) ray
                closestIntersectionTestFunc).distance,
              point := result0.point,
              normal := result0.normal })
        s.m_unboundedSurfaces := by
  simp only [ClosestIntersectionLocal, BuildBVH_m_bvh_of_treeCurrent s h,
    BuildBVH_m_unboundedSurfaces]

theorem ClosestIntersectionLocal_loop_of_bounded_hit (ray : Ray2D)
    (members bounded unbounded : List ImplicitSurface2)
    (hsplit : ∀ m ∈ members, m ∈ bounded ∨ m ∈ unbounded)
    (hU : ∀ m ∈ unbounded, m ∈ members)
    (hiff : ∀ m ∈ members, ((m.ClosestIntersection ray).isIntersecting = true ↔
      (m.ClosestIntersection ray).distance < DBL_MAX))
    (i : ImplicitSurface2) (hi : i ∈ members)
    (hilt : (i.ClosestIntersection ray).distance < DBL_MAX)
    (himin : ∀ j ∈ bounded,
      (i.ClosestIntersection ray).distance ≤ (j.ClosestIntersection ray).distance)
    (r2 : SurfaceRayIntersection2) (hr2i : r2.isIntersecting = true)
    (hr2d : r2.distance = (i.ClosestIntersection ray).distance) :
    ReportsClosestHit members ray (ClosestIntersectionLocal.loop ray r2 unbounded) := by
  have F1 := ClosestIntersectionLocal_loop_distance_le_init ray r2 unbounded
  have F2 := ClosestIntersectionLocal_loop_distance_le_mem ray r2 unbounded
  have hmin : ∀ m ∈ members, (ClosestIntersectionLocal.loop ray r2 unbounded).distance
      ≤ (m.ClosestIntersection ray).distance := by
    intro m hm
    rcases hsplit m hm with hmB | hmU
    · exact le_trans F1 (by rw [hr2d]; exact himin m hmB)
    · exact F2 m hmU
  have hex : ∃ m ∈ members, (m.ClosestIntersection ray).isIntersecting = true ∧
      (ClosestIntersectionLocal.loop ray r2 unbounded).isIntersecting = true ∧
      (ClosestIntersectionLocal.loop ray r2 unbounded).distance
        = (m.ClosestIntersection ray).distance := by
    rcases ClosestIntersectionLocal_loop_eq_init_or_mem ray r2 unbounded with
      h | ⟨m, hm, h, hd⟩
    · exact ⟨i, hi, (hiff i hi).mpr hilt, by rw [h, hr2i], by rw [h, hr2d]⟩
    · have hmhit : (m.ClosestIntersection ray).isIntersecting = true :=
        (hiff m (hU m hm)).mpr (lt_trans (by rw [hr2d] at hd; exact hd) hilt)
      exact ⟨m, hU m hm, hmhit, by rw [h, hmhit], by rw [h]⟩
  obtain ⟨m, hm, hmhit, hRi, hRd⟩ := hex
  exact ⟨⟨fun _ => ⟨m, hm, hmhit⟩, fun _ => hRi⟩,
    fun _ => ⟨⟨m, hm, hmhit, hRd⟩, fun j hj _ => hmin j hj⟩⟩

theorem ClosestIntersectionLocal_loop_of_no_bounded_hit (ray : Ray2D)
    (members bounded unbounded : List ImplicitSurface2)
    (hsplit : ∀ m ∈ members, m ∈ bounded ∨ m ∈ unbounded)
    (hU : ∀ m ∈ unbounded, m ∈ members)
    (hiff : ∀ m ∈ members, ((m.ClosestIntersection ray).isIntersecting = true ↔
      (m.ClosestIntersection ray).distance < DBL_MAX))
    (hBn : ∀ j ∈ bounded, ¬ (j.ClosestIntersection ray).distance < DBL_MAX)
    (r2 : SurfaceRayIntersection2) (hr2i : r2.isIntersecting = false)
    (hr2d : r2.distance = DBL_MAX) :
    ReportsClosestHit members ray (ClosestIntersectionLocal.loop ray r2 unbounded) := by
  have F2 := ClosestIntersectionLocal_loop_distance_le_mem ray r2 unbounded
  rcases ClosestIntersectionLocal_loop_eq_init_or_mem ray r2 unbounded with
    h | ⟨m, hm, h, hd⟩
  · have hnone : ¬ ∃ m ∈ members, (m.ClosestIntersection ray).isIntersecting = true := by
      rintro ⟨m, hm, hmhit⟩
      have hlt := (hiff m hm).mp hmhit
      rcases hsplit m hm with hmB | hmU
      · exact hBn m hmB hlt
      · have := F2 m hmU
        rw [h, hr2d] at this
        exact absurd hlt (not_lt.mpr this)
    unfold ReportsClosestHit
    rw [h, hr2i]
    simp only [Bool.false_eq_true, false_iff, false_implies, and_true]
    exact hnone
  · rw [hr2d] at hd
    have hmhit : (m.ClosestIntersection ray).isIntersecting = true :=
      (hiff m (hU m hm)).mpr hd
    have hRi : (ClosestIntersectionLocal.loop ray r2 unbounded).isIntersecting = true := by
      rw [h, hmhit]
    refine ⟨⟨fun _ => ⟨m, hU m hm, hmhit⟩, fun _ => hRi⟩,
      fun _ => ⟨⟨m, hU m hm, hmhit, by rw [h]⟩, ?_⟩⟩
    intro j hj hjhit
    rcases hsplit j hj with hjB | hjU
    · exact absurd ((hiff j hj).mp hjhit) (hBn j hjB)
    · exact F2 j hjU

/-- On a state whose tree is current and whose unbounded cache is exact, with a BVH that
meets the closest-intersection contract and members whose result carries the maximum
representable distance exactly when it is not intersecting, `ClosestIntersectionLocal`
reports an intersection if and only if some member has one, and then at the minimum ray
parameter over the members that have one. -/
theorem ClosestIntersectionLocal_is_min_of_treeCurrent (PointAt : Ray2D → Double → Vector2D)
    (bvh : BVH2) (result0 : SurfaceRayIntersection2) (s : ImplicitSurfaceSet2) (ray : Ray2D)
    (hcache : UnboundedCacheExact s) (hcur : TreeCurrent s)
    (hbvh : bvh.ClosestIntersectionIsMin)
    (hmiss : ∀ m ∈ s.m_surfaces, (m.ClosestIntersection ray).isIntersecting = false →
      (m.ClosestIntersection ray).distance = DBL_MAX)
    (hhit : ∀ m ∈ s.m_surfaces, (m.ClosestIntersection ray).isIntersecting = true →
      (m.ClosestIntersection ray).distance < DBL_MAX) :
    ReportsClosestHit s.m_surfaces ray
      (ClosestIntersectionLocal PointAt bvh result0 s ray).1 := by
  have hiff : ∀ m ∈ s.m_surfaces, ((m.ClosestIntersection ray).isIntersecting = true ↔
      (m.ClosestIntersection ray).distance < DBL_MAX) := by
    intro m hm
    constructor
    · exact hhit m hm
    · intro hlt
      cases hi : (m.ClosestIntersection ray).isIntersecting with
      | true => rfl
      | false => rw [hmiss m hm hi] at hlt; exact absurd hlt (lt_irrefl _)
  have hU : ∀ m ∈ s.m_unboundedSurfaces, m ∈ s.m_surfaces := by
    intro m hm
    rw [hcache] at hm
    exact (List.mem_filter.mp hm).1
  have hsplit : ∀ m ∈ s.m_surfaces,
      m ∈ s.m_surfaces.filter (fun surface => surface.IsBounded) ∨
        m ∈ s.m_unboundedSurfaces := by
    intro m hm
    cases hb : m.IsBounded with
    | true => exact Or.inl (List.mem_filter.mpr ⟨hm, hb⟩)
    | false => exact Or.inr (by rw [hcache]; exact List.mem_filter.mpr ⟨hm, by simp [hb]⟩)
  rw [ClosestIntersectionLocal_fst_of_treeCurrent _ _ _ _ _ hcur]
  by_cases hB : ∃ j ∈ s.m_surfaces.filter (fun surface => surface.IsBounded),
      (j.ClosestIntersection ray).distance < DBL_MAX
  · obtain ⟨i, hi, heq, hilt, himin⟩ := (hbvh _ ray).2 hB
    rw [heq]
    exact ClosestIntersectionLocal_loop_of_bounded_hit ray _ _ _ hsplit hU hiff i
      (List.mem_filter.mp hi).1 hilt himin _ rfl rfl
  · have hBn : ∀ j ∈ s.m_surfaces.filter (fun surface => surface.IsBounded),
        ¬ (j.ClosestIntersection ray).distance < DBL_MAX := by
      intro j hj hlt
      exact hB ⟨j, hj, hlt⟩
    rw [(hbvh _ ray).1 hBn]
    exact ClosestIntersectionLocal_loop_of_no_bounded_hit ray _ _ _ hsplit hU hiff hBn _
      rfl rfl

theorem closestIntersectionScan_spec (f : ImplicitSurface2 → Ray2D → Double) (ray : Ray2D)
    (best : ClosestIntersectionQueryResult2) (l : List ImplicitSurface2) :
    (BVH2.closestIntersectionScan f ray best l = best ∧
        ∀ j ∈ l, ¬ f j ray < best.distance) ∨
      ∃ i ∈ l, BVH2.closestIntersectionScan f ray best l
          = { item := some i, distance := f i ray } ∧
        f i ray < best.distance ∧ ∀ j ∈ l, f i ray ≤ f j ray := by
  induction l generalizing best with
  | nil => exact Or.inl ⟨rfl, by simp⟩
  | cons a rest ih =>
    simp only [BVH2.closestIntersectionScan]
    split
    · rename_i hlt
      rcases ih { item := some a, distance := f a ray } with ⟨h, hall⟩ | ⟨i, hi, h, hd, hmin⟩
      · refine Or.inr ⟨a, List.mem_cons_self _ _, h, hlt, ?_⟩
        intro j hj
        rcases List.mem_cons.mp hj with rfl | hj
        · exact le_refl _
        · exact not_lt.mp (hall j hj)
      · refine Or.inr ⟨i, List.mem_cons_of_mem _ hi, h, lt_trans hd hlt, ?_⟩
        intro j hj
        rcases List.mem_cons.mp hj with rfl | hj
        · exact le_of_lt hd
        · exact hmin j hj
    · rename_i hnlt
      rcases ih best with ⟨h, hall⟩ | ⟨i, hi, h, hd, hmin⟩
      · refine Or.inl ⟨h, ?_⟩
        intro j hj
        rcases List.mem_cons.mp hj with rfl | hj
        · exact hnlt
        · exact hall j hj
      · refine Or.inr ⟨i, List.mem_cons_of_mem _ hi, h, hd, ?_⟩
        intro j hj
        rcases List.mem_cons.mp hj with rfl | hj
        · exact le_trans (le_of_lt hd) (not_lt.mp hnlt)
        · exact hmin j hj

theorem exhaustive_ClosestIntersectionIsMin : BVH2.exhaustive.ClosestIntersectionIsMin := by
  intro items ray
  have hspec := closestIntersectionScan_spec closestIntersectionTestFunc ray
    { item := none, distance := DBL_MAX } items
  constructor
  · intro hnone
    rcases hspec with ⟨h, -⟩ | ⟨i, hi, -, hd, -⟩
    · exact h
    · exact absurd hd (hnone i hi)
  · rintro ⟨j, hj, hjlt⟩
    rcases hspec with ⟨-, hall⟩ | ⟨i, hi, h, hd, hmin⟩
    · exact absurd hjlt (hall j hj)
    · exact ⟨i, hi, h, hd, hmin⟩

/-! ## The claims -/

/-- Claim C1. `IsBounded()` returns true if and only if the set holds at least one surface and
every member surface reports `IsBounded()`; it returns false for the empty set, and false
as soon as one member is unbounded. -/
theorem IsBounded_iff (s : ImplicitSurfaceSet2) :
    (s.IsBounded = true ↔
      s.m_surfaces ≠ [] ∧ ∀ surface ∈ s.m_surfaces, surface.IsBounded = true) ∧
    (s.m_surfaces = [] → s.IsBounded = false) ∧
    (∀ surface ∈ s.m_surfaces, surface.IsBounded = false → s.IsBounded = false) := by
  have key : s.IsBounded = true ↔
      s.m_surfaces ≠ [] ∧ ∀ surface ∈ s.m_surfaces, surface.IsBounded = true := by
    unfold IsBounded
    cases h : IsBounded.loop s.m_surfaces with
    | none =>
      have hall := (IsBounded_loop_eq_none_iff _).mp h
      cases hs : s.m_surfaces with
      | nil => simp
      | cons a rest => simpa [hs] using hall
    | some r =>
      have hr : r = false := by
        cases r
        · rfl
        · exact absurd h (IsBounded_loop_ne_some_true _)
      subst hr
      have hnot : ¬ ∀ surface ∈ s.m_surfaces, surface.IsBounded = true := by
        intro hall
        rw [(IsBounded_loop_eq_none_iff _).mpr hall] at h
        cases h
      simp only [Bool.false_eq_true, false_iff, not_and]
      exact fun _ => hnot
  refine ⟨key, ?_, ?_⟩
  · intro hnil
    cases hb : s.IsBounded
    · rfl
    · exact absurd hnil (key.mp hb).1
  · intro surface hmem hunb
    cases hb : s.IsBounded
    · rfl
    · have := (key.mp hb).2 surface hmem
      rw [hunb] at this
      cases this

/-- An instance of `IsBounded_iff`: a set of two bounded surfaces is bounded, and it stops
being bounded when an unbounded surface is added. -/
theorem IsBounded_iff_witness :
    (ofImplicit true [Sample.near, Sample.far] Transform2.identity false).IsBounded = true ∧
    ((ofImplicit true [Sample.near, Sample.far] Transform2.identity false).AddSurface
      Sample.wide).IsBounded = false :=
  ⟨(IsBounded_iff _).1.mpr ⟨by simp [ofImplicit, InvalidateBVH, defaultInit],
      by simp [ofImplicit, InvalidateBVH, defaultInit, Sample.near, Sample.far, pointSurface]⟩,
   (IsBounded_iff _).2.2 Sample.wide
      (by simp [ofImplicit, InvalidateBVH, defaultInit, AddSurface, Sample.wide, pointSurface])
      (by simp [Sample.wide, pointSurface])⟩

/-- Claim C2, the code at the failing input. On the non-empty set obtained by constructing a
set from `near`, querying it and copy-assigning it from a set that holds `far` alone (a
state the public interface produces), with a
BVH that meets the nearest contract and members whose `ClosestDistance` is the distance to
their `ClosestPoint`, `ClosestDistanceLocal` returns 1 although the only member is at
distance 5. -/
theorem ClosestDistanceLocal_stale_after_copy_assignment :
    (∀ flag0 : Bool, Reachable sampleToImplicit flag0 Sample.staleAfterAssign) ∧
    Sample.staleAfterAssign.m_surfaces = [Sample.far] ∧
    BVH2.exhaustive.NearestIsMin ∧
    (∀ m ∈ Sample.staleAfterAssign.m_surfaces,
      axisDistance (m.ClosestPoint Sample.p0) Sample.p0 = m.ClosestDistance Sample.p0 ∧
      m.ClosestDistance Sample.p0 = 5) ∧
    (ClosestDistanceLocal axisDistance BVH2.exhaustive Sample.staleAfterAssign Sample.p0).1
      = 1 := by
  have hsurf : Sample.staleAfterAssign.m_surfaces = [Sample.far] := by
    simp [Sample.staleAfterAssign, assign, ofImplicit, InvalidateBVH, defaultInit]
  refine ⟨?_, hsurf, exhaustive_NearestIsMin, ?_, ?_⟩
  · intro flag0
    exact Reachable.assign
      (Reachable.BuildBVH (Reachable.ofImplicit [Sample.near] Transform2.identity false))
      (Reachable.ofImplicit [Sample.far] Transform2.identity false)
  · rw [hsurf]
    norm_num [Sample.far, pointSurface, axisDistance, Sample.p0]
  · simp [Sample.staleAfterAssign, ClosestDistanceLocal, BuildBVH, assign, ofImplicit,
      InvalidateBVH, defaultInit, collectBounded, BVH2Tree.Build, appendUnbounded,
      Sample.near, Sample.far, pointSurface, BVH2.exhaustive, BVH2.nearestScan, distanceFunc,
      axisDistance, Sample.p0, ClosestDistanceLocal.loop]

/-- Claim C4, the code at the failing input. A set is constructed from the bounded surface
`near`, queried once, and then copy-assigned from a set that holds the bounded surface
`far`: the state is reachable, its dirty flag is clear, its surface sequence is `[far]`,
yet its cached tree is the one built from `[near]`; the tree is not current, the next
closest-point query does not rebuild it and answers with the closest point of `near`, which
is no longer a member. -/
theorem copy_assignment_leaves_stale_tree :
    (∀ flag0 : Bool, Reachable sampleToImplicit flag0 Sample.staleAfterAssign) ∧
    Sample.staleAfterAssign.m_surfaces = [Sample.far] ∧
    Sample.staleAfterAssign.m_bvhInvalidated = false ∧
    Sample.staleAfterAssign.m_bvh = treeOf [Sample.near] ∧
    ¬ TreeCurrent Sample.staleAfterAssign ∧
    (ClosestPointLocal axisDistance BVH2.exhaustive Sample.staleAfterAssign Sample.p0).2.m_bvh
      = treeOf [Sample.near] ∧
    (ClosestPointLocal axisDistance BVH2.exhaustive Sample.staleAfterAssign Sample.p0).1
      = Sample.near.ClosestPoint Sample.p0 ∧
    Sample.near.ClosestPoint Sample.p0 ≠ Sample.far.ClosestPoint Sample.p0 := by
  have hsurf : Sample.staleAfterAssign.m_surfaces = [Sample.far] := by
    simp [Sample.staleAfterAssign, assign, ofImplicit, InvalidateBVH, defaultInit]
  have hflag : Sample.staleAfterAssign.m_bvhInvalidated = false := by
    simp [Sample.staleAfterAssign, ClosestDistanceLocal, BuildBVH, assign, ofImplicit,
      InvalidateBVH, defaultInit]
  have htree : Sample.staleAfterAssign.m_bvh = treeOf [Sample.near] := by
    simp [Sample.staleAfterAssign, ClosestDistanceLocal, BuildBVH, assign, ofImplicit,
      InvalidateBVH, defaultInit, collectBounded, BVH2Tree.Build, treeOf, Sample.near,
      pointSurface]
  refine ⟨?_, hsurf, hflag, htree, ?_, ?_, ?_, ?_⟩
  · intro flag0
    exact Reachable.assign
      (Reachable.BuildBVH (Reachable.ofImplicit [Sample.near] Transform2.identity false))
      (Reachable.ofImplicit [Sample.far] Transform2.identity false)
  · rintro (h | h)
    · rw [hflag] at h
      cases h
    · rw [htree, hsurf] at h
      have h5 := congrArg (fun t => t.items.map (fun m => m.ClosestDistance Sample.p0)) h
      norm_num [treeOf, BVH2Tree.Build, Sample.near, Sample.far, pointSurface, axisDistance,
        Sample.p0] at h5
  · have h2 : (ClosestPointLocal axisDistance BVH2.exhaustive Sample.staleAfterAssign
        Sample.p0).2 = BuildBVH Sample.staleAfterAssign := rfl
    rw [h2, BuildBVH_m_bvh_of_clean _ hflag, htree]
  · simp [Sample.staleAfterAssign, ClosestPointLocal, ClosestDistanceLocal, BuildBVH, assign,
      ofImplicit, InvalidateBVH, defaultInit, collectBounded, BVH2Tree.Build, appendUnbounded,
      Sample.near, Sample.far, pointSurface, BVH2.exhaustive, BVH2.nearestScan,
      ClosestPointLocal.loop]
  · norm_num [Sample.near, Sample.far, pointSurface]

/-- Claim C5. In every state reachable through either constructor, `AddSurface`,
`AddExplicitSurface`, copy construction, move construction and copy assignment (and also
`UpdateQueryEngine` and the queries), the unbounded-surface cache is exactly the subsequence
of the surface sequence whose members report `!IsBounded()`, in insertion order. -/
theorem unbounded_cache_is_filter_of_reachable
    (SurfaceToImplicit2 : Surface2 → ImplicitSurface2) (flag0 : Bool)
    (s : ImplicitSurfaceSet2) (hreach : Reachable SurfaceToImplicit2 flag0 s) :
    s.m_unboundedSurfaces = s.m_surfaces.filter (fun surface => !surface.IsBounded) :=
  hreach.unboundedCacheExact

/-- An instance of `unbounded_cache_is_filter_of_reachable`: a set constructed from one
bounded surface, extended by an unbounded and a bounded one, then assigned to another
set. -/
theorem unbounded_cache_is_filter_of_reachable_witness :
    (assign (ofImplicit true [] Transform2.identity false)
      (AddSurface (AddSurface (ofImplicit true [Sample.near] Transform2.identity false)
        Sample.wide) Sample.far)).m_unboundedSurfaces
    = (assign (ofImplicit true [] Transform2.identity false)
      (AddSurface (AddSurface (ofImplicit true [Sample.near] Transform2.identity false)
        Sample.wide) Sample.far)).m_surfaces.filter (fun surface => !surface.IsBounded) :=
  unbounded_cache_is_filter_of_reachable sampleToImplicit true _
    (Reachable.assign (Reachable.ofImplicit _ _ _)
      (Reachable.AddSurface _ (Reachable.AddSurface _ (Reachable.ofImplicit _ _ _))))

end ImplicitSurfaceSet2

/-! ## The `"Solver"` lambda -/

theorem shareRepresentation_iff (source dest : GridPtr) :
    shareRepresentation source dest ↔
      ∃ src dst, source = some src ∧ dest = some dst ∧
        ((src.isScalarGrid = true ∧ dst.isScalarGrid = true) ∨
         (src.isCollocatedVectorGrid = true ∧ dst.isCollocatedVectorGrid = true) ∨
         (src.isFaceCenteredGrid = true ∧ dst.isFaceCenteredGrid = true)) := by
  constructor
  · rintro ⟨r, src, dst, hs, hd, h1, h2⟩
    refine ⟨src, dst, hs, hd, ?_⟩
    cases r
    · exact Or.inl ⟨h1, h2⟩
    · exact Or.inr (Or.inl ⟨h1, h2⟩)
    · exact Or.inr (Or.inr ⟨h1, h2⟩)
  · rintro ⟨src, dst, hs, hd, h | h | h⟩
    · exact ⟨.scalar, src, dst, hs, hd, h.1, h.2⟩
    · exact ⟨.collocatedVector, src, dst, hs, hd, h.1, h.2⟩
    · exact ⟨.faceCentered, src, dst, hs, hd, h.1, h.2⟩

/-- Whatever the keywords: when an exception leaves the lambda `Solve` has not been invoked,
and otherwise `Solve` has been invoked exactly once, on the two grids passed in and on a
representation that both have; the invalid-argument error is raised only when the grids
share no representation. -/
theorem solverBody_calls (source dest : GridPtr) (c t : Double)
    (kwargs : List (String × PyObject)) :
    ((solverBody source c t dest kwargs).raised.isSome = true →
      (solverBody source c t dest kwargs).solveCalls = []) ∧
    ((solverBody source c t dest kwargs).raised = none →
      ∃ call, (solverBody source c t dest kwargs).solveCalls = [call] ∧
        source = some call.source ∧ dest = some call.dest ∧
        call.source.has call.representation = true ∧
        call.dest.has call.representation = true) ∧
    ((∃ e, (solverBody source c t dest kwargs).raised = some e ∧ e.isInvalidArgument = true) →
      ¬ shareRepresentation source dest) := by
  rw [shareRepresentation_iff]
  rcases source with _ | ⟨i, a1, a2, a3⟩ <;> rcases dest with _ | ⟨j, b1, b2, b3⟩ <;>
    cases hb : kwargsContains kwargs "boundarySDF" <;>
    cases hf : kwargsContains kwargs "fluidSDF" <;>
    simp [solverBody, dynamicPointerCast, Grid.has, hb, hf, PyObject.castScalarFieldPtr,
      Exception.isInvalidArgument] <;>
    cases a1 <;> cases b1 <;> cases a2 <;> cases b2 <;> cases a3 <;> cases b3 <;>
    simp [Grid.has]

/-- When neither keyword is supplied, the lambda raises the invalid-argument error if and
only if source and dest share no representation. -/
theorem solverBody_invalid_argument_iff_of_no_keyword (source dest : GridPtr) (c t : Double)
    (kwargs : List (String × PyObject))
    (hb : kwargsContains kwargs "boundarySDF" = false)
    (hf : kwargsContains kwargs "fluidSDF" = false) :
    (∃ e, (solverBody source c t dest kwargs).raised = some e ∧ e.isInvalidArgument = true) ↔
      ¬ shareRepresentation source dest := by
  rw [shareRepresentation_iff]
  rcases source with _ | ⟨i, a1, a2, a3⟩ <;> rcases dest with _ | ⟨j, b1, b2, b3⟩ <;>
    simp [solverBody, dynamicPointerCast, Grid.has, hb, hf, Exception.isInvalidArgument] <;>
    cases a1 <;> cases b1 <;> cases a2 <;> cases b2 <;> cases a3 <;> cases b3 <;>
    simp [Grid.has]

/-- Claim C6, the code at the failing input. With a scalar grid as source, a face-centered
grid as dest and the keyword `boundarySDF` supplied, the two grids share no representation,
yet neither lambda raises the invalid-argument error: the cast of the whole keyword
dictionary raises `cast_error` first, and `Solve` is not invoked. -/
theorem Solver_mismatch_with_keyword_raises_cast_error :
    ¬ shareRepresentation (some Sample.scalarGrid) (some Sample.faceGrid) ∧
    AddGridForwardEulerDiffusionSolver2.Solver (some Sample.scalarGrid) 1 1
        (some Sample.faceGrid) [("boundarySDF", PyObject.scalarField (ScalarField.ofCaller 7))]
      = { solveCalls := [], raised := some Exception.cast_error } ∧
    AddGridForwardEulerDiffusionSolver3.Solver (some Sample.scalarGrid) 1 1
        (some Sample.faceGrid) [("boundarySDF", PyObject.scalarField (ScalarField.ofCaller 7))]
      = { solveCalls := [], raised := some Exception.cast_error } ∧
    Exception.cast_error.isInvalidArgument = false := by
  refine ⟨?_, ?_, ?_, rfl⟩
  · rintro ⟨r, src, dst, hs, hd, h1, h2⟩
    cases hs
    cases hd
    cases r <;> simp [Grid.has, Sample.scalarGrid, Sample.faceGrid] at h1 h2
  · simp [AddGridForwardEulerDiffusionSolver2.Solver, solverBody, kwargsContains,
      PyObject.castScalarFieldPtr]
  · simp [AddGridForwardEulerDiffusionSolver3.Solver, solverBody, kwargsContains,
      PyObject.castScalarFieldPtr]

namespace ImplicitSurfaceSet2

/-- Claim C7, as stated, is refuted. A set constructed from no surface at all, queried with a
BVH that answers "no item" on the empty tree, does not return the origin from
`ClosestPointLocal`: it returns the point whose two coordinates are the maximum
representable double. -/
theorem ClosestPointLocal_empty_ne_origin :
    (ofImplicit true [] Transform2.identity false).m_surfaces = [] ∧
    (ofImplicit true [] Transform2.identity false).m_unboundedSurfaces = [] ∧
    (ClosestPointLocal axisDistance BVH2.exhaustive
      (ofImplicit true [] Transform2.identity false) Sample.p0).1
      = { x := DBL_MAX, y := DBL_MAX } ∧
    (ClosestPointLocal axisDistance BVH2.exhaustive
      (ofImplicit true [] Transform2.identity false) Sample.p0).1 ≠ { x := 0, y := 0 } := by
  have h : (ClosestPointLocal axisDistance BVH2.exhaustive
      (ofImplicit true [] Transform2.identity false) Sample.p0).1
      = { x := DBL_MAX, y := DBL_MAX } := by
    simp [ClosestPointLocal, BuildBVH, ofImplicit, InvalidateBVH, defaultInit, collectBounded,
      BVH2Tree.Build, appendUnbounded, BVH2.exhaustive, BVH2.nearestScan,
      ClosestPointLocal.loop]
  refine ⟨rfl, rfl, h, ?_⟩
  rw [h]
  intro hx
  have := congrArg Vector2D.x hx
  norm_num [DBL_MAX] at this

/-- Claim C7, amended. For a set with no surfaces at all (no member, empty unbounded cache)
whose cached tree is current, and a BVH whose nearest query on the empty tree returns no
item, `ClosestPointLocal(p)` returns, for every `p`, the point whose two coordinates are the
maximum representable double. -/
theorem ClosestPointLocal_empty_eq_max (DistanceTo : Vector2D → Vector2D → Double)
    (bvh : BVH2) (s : ImplicitSurfaceSet2) (p : Vector2D)
    (hsurf : s.m_surfaces = []) (hunb : s.m_unboundedSurfaces = []) (hcur : TreeCurrent s)
    (hbvh : (bvh.Nearest (treeOf []) p distanceFunc).item = none) :
    (ClosestPointLocal DistanceTo bvh s p).1 = { x := DBL_MAX, y := DBL_MAX } := by
  rw [ClosestPointLocal_fst_of_treeCurrent _ _ _ _ hcur, hsurf, hunb]
  simp only [List.filter_nil, ClosestPointLocal.loop, hbvh]

/-- An instance of `ClosestPointLocal_empty_eq_max`: the set constructed from no surface. -/
theorem ClosestPointLocal_empty_eq_max_witness :
    (ClosestPointLocal axisDistance BVH2.exhaustive
      (ofImplicit true [] Transform2.identity false) { x := 2, y := 3 }).1
      = { x := DBL_MAX, y := DBL_MAX } :=
  ClosestPointLocal_empty_eq_max axisDistance BVH2.exhaustive
    (ofImplicit true [] Transform2.identity false) { x := 2, y := 3 } rfl rfl (Or.inl rfl) rfl

/-- Claim C8, the code at the failing input. On the set with no surfaces at all obtained by
constructing a set from `near`, querying it and copy-assigning it from an empty set, with a
BVH that returns no item and the maximum representable double on the empty tree,
`ClosestDistanceLocal` returns 1, not the maximum representable double, and
`ClosestNormalLocal` returns the normal (0, 1) of `near`, not (1, 0). -/
theorem closest_queries_on_emptied_set_use_old_tree :
    (∀ flag0 : Bool, Reachable sampleToImplicit flag0 Sample.staleEmptied) ∧
    Sample.staleEmptied.m_surfaces = [] ∧
    Sample.staleEmptied.m_unboundedSurfaces = [] ∧
    BVH2.exhaustive.Nearest (treeOf []) Sample.p0 distanceFunc
      = { item := none, distance := DBL_MAX } ∧
    (ClosestDistanceLocal axisDistance BVH2.exhaustive Sample.staleEmptied Sample.p0).1 = 1 ∧
    (ClosestDistanceLocal axisDistance BVH2.exhaustive Sample.staleEmptied Sample.p0).1
      ≠ DBL_MAX ∧
    (ClosestNormalLocal axisDistance BVH2.exhaustive Sample.staleEmptied Sample.p0).1
      = { x := 0, y := 1 } ∧
    (ClosestNormalLocal axisDistance BVH2.exhaustive Sample.staleEmptied Sample.p0).1
      ≠ { x := 1, y := 0 } := by
  have hd : (ClosestDistanceLocal axisDistance BVH2.exhaustive Sample.staleEmptied
      Sample.p0).1 = 1 := by
    simp [Sample.staleEmptied, ClosestDistanceLocal, BuildBVH, assign, ofImplicit,
      InvalidateBVH, defaultInit, collectBounded, BVH2Tree.Build, appendUnbounded,
      Sample.near, pointSurface, BVH2.exhaustive, BVH2.nearestScan, distanceFunc,
      axisDistance, Sample.p0, ClosestDistanceLocal.loop]
  have hn : (ClosestNormalLocal axisDistance BVH2.exhaustive Sample.staleEmptied
      Sample.p0).1 = { x := 0, y := 1 } := by
    simp [Sample.staleEmptied, ClosestNormalLocal, ClosestDistanceLocal, BuildBVH, assign,
      ofImplicit, InvalidateBVH, defaultInit, collectBounded, BVH2Tree.Build, appendUnbounded,
      Sample.near, pointSurface, BVH2.exhaustive, BVH2.nearestScan, ClosestNormalLocal.loop]
  refine ⟨?_, rfl, rfl, rfl, hd, ?_, hn, ?_⟩
  · intro flag0
    exact Reachable.assign
      (Reachable.BuildBVH (Reachable.ofImplicit [Sample.near] Transform2.identity false))
      (Reachable.ofImplicit [] Transform2.identity false)
  · rw [hd]
    norm_num [DBL_MAX]
  · rw [hn]
    intro h
    have := congrArg Vector2D.x h
    norm_num at this

/-- Claim C9, as stated, is refuted. In the set constructed from the single surface
`atInfinity`, whose signed distance at `p0` is `+infinity`, the minimum of `SignedDistance`
over the members is `+infinity`; `SignedDistanceLocal` returns the maximum representable
double instead, which is the value of no member. -/
theorem SignedDistanceLocal_infinite_member_gives_DBL_MAX :
    Sample.infiniteSet.m_surfaces = [Sample.atInfinity] ∧
    Sample.atInfinity.SignedDistance Sample.p0 = DBL_INF ∧
    DBL_MAX < DBL_INF ∧
    (SignedDistanceLocal Sample.infiniteSet Sample.p0).1 = DBL_MAX ∧
    (∀ m ∈ Sample.infiniteSet.m_surfaces,
      (SignedDistanceLocal Sample.infiniteSet Sample.p0).1 ≠ m.SignedDistance Sample.p0) := by
  have hsurf : Sample.infiniteSet.m_surfaces = [Sample.atInfinity] := by
    simp [Sample.infiniteSet, ofImplicit, InvalidateBVH, defaultInit]
  have hlt : DBL_MAX < DBL_INF := by norm_num [DBL_MAX, DBL_INF]
  have hval : (SignedDistanceLocal Sample.infiniteSet Sample.p0).1 = DBL_MAX := by
    simp [SignedDistanceLocal, hsurf, SignedDistanceLocal.loop, stdMin, Sample.atInfinity,
      not_lt.mpr (le_of_lt hlt)]
  refine ⟨hsurf, rfl, hlt, hval, ?_⟩
  intro m hm
  rw [hsurf, List.mem_singleton] at hm
  subst hm
  rw [hval]
  exact ne_of_lt hlt

/-- Claim C9, amended. For every set and every point, `SignedDistanceLocal(p)` is the minimum
of the maximum representable double and of `SignedDistance(p)` over every member surface,
bounded and unbounded alike: it is at most the maximum representable double and at most the
value of every member, and it is the maximum representable double or the value of some
member. Hence it is the maximum representable double for the empty set, and the minimum
over the members as soon as the value of one member is at most the maximum representable
double. The query returns the object as it was, and its result is the same for any two
states with the same surface sequence, whatever their dirty flag, cached tree and unbounded
cache. -/
theorem SignedDistanceLocal_is_min_with_DBL_MAX (s : ImplicitSurfaceSet2) (p : Vector2D) :
    (SignedDistanceLocal s p).1 ≤ DBL_MAX ∧
    (∀ m ∈ s.m_surfaces, (SignedDistanceLocal s p).1 ≤ m.SignedDistance p) ∧
    ((SignedDistanceLocal s p).1 = DBL_MAX ∨
      ∃ m ∈ s.m_surfaces, (SignedDistanceLocal s p).1 = m.SignedDistance p) ∧
    (s.m_surfaces = [] → (SignedDistanceLocal s p).1 = DBL_MAX) ∧
    ((∃ m ∈ s.m_surfaces, m.SignedDistance p ≤ DBL_MAX) →
      (∃ m ∈ s.m_surfaces, (SignedDistanceLocal s p).1 = m.SignedDistance p) ∧
      ∀ m ∈ s.m_surfaces, (SignedDistanceLocal s p).1 ≤ m.SignedDistance p) ∧
    (SignedDistanceLocal s p).2 = s ∧
    (∀ s' : ImplicitSurfaceSet2, s'.m_surfaces = s.m_surfaces →
      (SignedDistanceLocal s' p).1 = (SignedDistanceLocal s p).1) := by
  refine ⟨SignedDistanceLocal_loop_le_init p DBL_MAX s.m_surfaces,
    SignedDistanceLocal_loop_le_mem p DBL_MAX s.m_surfaces,
    SignedDistanceLocal_loop_eq_init_or_mem p DBL_MAX s.m_surfaces, ?_, ?_, rfl, ?_⟩
  · intro h
    simp [SignedDistanceLocal, h, SignedDistanceLocal.loop]
  · rintro ⟨m0, hm0, hfin⟩
    refine ⟨?_, SignedDistanceLocal_loop_le_mem p DBL_MAX s.m_surfaces⟩
    rcases SignedDistanceLocal_loop_eq_init_or_mem p DBL_MAX s.m_surfaces with h | h
    · refine ⟨m0, hm0, ?_⟩
      have hle := SignedDistanceLocal_loop_le_mem p DBL_MAX s.m_surfaces m0 hm0
      rw [h] at hle
      show SignedDistanceLocal.loop p DBL_MAX s.m_surfaces = _
      rw [h]
      exact le_antisymm hle hfin
    · exact h
  · intro s' h
    simp only [SignedDistanceLocal, h]

/-- An instance of `SignedDistanceLocal_is_min_with_DBL_MAX`: in the set of four members,
bounded and unbounded in turn, with signed distances 5, -2, 1 and 3 at `p0`, the result is
-2, the value of the second member, which is unbounded; it is the value of a member and at
most the value of every member. -/
theorem SignedDistanceLocal_is_min_with_DBL_MAX_witness :
    Sample.mixedSet.m_surfaces = [Sample.far, Sample.inside, Sample.near, Sample.wide] ∧
    (SignedDistanceLocal Sample.mixedSet Sample.p0).1 = Sample.inside.SignedDistance Sample.p0 ∧
    (SignedDistanceLocal Sample.mixedSet Sample.p0).1 = -2 ∧
    (∀ m ∈ Sample.mixedSet.m_surfaces,
      (SignedDistanceLocal Sample.mixedSet Sample.p0).1 ≤ m.SignedDistance Sample.p0) := by
  have hsurf : Sample.mixedSet.m_surfaces
      = [Sample.far, Sample.inside, Sample.near, Sample.wide] := by
    simp [Sample.mixedSet, ofImplicit, InvalidateBVH, defaultInit]
  have h := SignedDistanceLocal_is_min_with_DBL_MAX Sample.mixedSet Sample.p0
  have hle : (SignedDistanceLocal Sample.mixedSet Sample.p0).1 ≤ -2 :=
    h.2.1 Sample.inside (by rw [hsurf]; simp)
  have hval : (SignedDistanceLocal Sample.mixedSet Sample.p0).1 = -2 := by
    rcases h.2.2.1 with hmax | ⟨m, hm, hm2⟩
    · rw [hmax] at hle
      norm_num [DBL_MAX] at hle
    · rw [hsurf] at hm
      simp only [List.mem_cons, List.mem_singleton, List.not_mem_nil, or_false] at hm
      rcases hm with rfl | rfl | rfl | rfl
      · rw [hm2] at hle
        norm_num [Sample.far, pointSurface, axisDistance, Sample.p0] at hle
      · rw [hm2]
        rfl
      · rw [hm2] at hle
        norm_num [Sample.near, pointSurface, axisDistance, Sample.p0] at hle
      · rw [hm2] at hle
        norm_num [Sample.wide, pointSurface, axisDistance, Sample.p0] at hle
  exact ⟨hsurf, hval, hval, h.2.1⟩

/-- Claim C10, the code at the failing input. On the set obtained by constructing a set from
`near`, querying it and copy-assigning it from a set that holds `unhit` alone, the only
member has no intersection with the ray (its result carries the maximum representable
distance), yet `ClosestIntersectionLocal` reports an intersection at ray parameter 1, the
hit of the former member `near` that the old tree still holds. -/
theorem ClosestIntersectionLocal_stale_after_copy_assignment :
    (∀ flag0 : Bool, Reachable sampleToImplicit flag0 Sample.staleForRay) ∧
    BVH2.exhaustive.ClosestIntersectionIsMin ∧
    Sample.staleForRay.m_surfaces = [Sample.unhit] ∧
    (∀ m ∈ Sample.staleForRay.m_surfaces,
      (m.ClosestIntersection Sample.ray0).isIntersecting = false ∧
      (m.ClosestIntersection Sample.ray0).distance = DBL_MAX) ∧
    (ClosestIntersectionLocal Sample.pointAt BVH2.exhaustive Sample.noHit Sample.staleForRay
      Sample.ray0).1.isIntersecting = true ∧
    (ClosestIntersectionLocal Sample.pointAt BVH2.exhaustive Sample.noHit Sample.staleForRay
      Sample.ray0).1.distance = 1 := by
  have hsurf : Sample.staleForRay.m_surfaces = [Sample.unhit] := by
    simp [Sample.staleForRay, assign, ofImplicit, InvalidateBVH, defaultInit]
  have hone : (1 : ℚ) < DBL_MAX := by norm_num [DBL_MAX]
  refine ⟨?_, exhaustive_ClosestIntersectionIsMin, hsurf, ?_, ?_, ?_⟩
  · intro flag0
    exact Reachable.assign
      (Reachable.BuildBVH (Reachable.ofImplicit [Sample.near] Transform2.identity false))
      (Reachable.ofImplicit [Sample.unhit] Transform2.identity false)
  · rw [hsurf]
    simp [Sample.unhit, pointSurface]
  · simp [Sample.staleForRay, ClosestIntersectionLocal, ClosestDistanceLocal, BuildBVH, assign,
      ofImplicit, InvalidateBVH, defaultInit, collectBounded, BVH2Tree.Build, appendUnbounded,
      Sample.near, Sample.unhit, pointSurface, BVH2.exhaustive, BVH2.closestIntersectionScan,
      closestIntersectionTestFunc, ClosestIntersectionLocal.loop, hone]
  · simp [Sample.staleForRay, ClosestIntersectionLocal, ClosestDistanceLocal, BuildBVH, assign,
      ofImplicit, InvalidateBVH, defaultInit, collectBounded, BVH2Tree.Build, appendUnbounded,
      Sample.near, Sample.unhit, pointSurface, BVH2.exhaustive, BVH2.closestIntersectionScan,
      closestIntersectionTestFunc, ClosestIntersectionLocal.loop, hone]

/-! ## The intersection test -/

theorem IntersectsLocal_loop_eq (ray : Ray2D) (result : Bool) (l : List ImplicitSurface2) :
    IntersectsLocal.loop ray result l = (result || l.any (fun m => m.Intersects ray)) := by
  induction l generalizing result with
  | nil => simp [IntersectsLocal.loop]
  | cons a rest ih =>
    simp only [IntersectsLocal.loop, ih, List.any_cons, Bool.or_assoc]

theorem exhaustive_IntersectsIsAny : BVH2.exhaustive.IntersectsIsAny := by
  intro items ray
  simp [BVH2.exhaustive, treeOf, BVH2Tree.Build, intersectsTestFunc]

/-- In every state, `IntersectsLocal` is the disjunction of the BVH test on the tree the
object holds after `BuildBVH` and of the tests of the surfaces in the unbounded cache. -/
theorem IntersectsLocal_fst_eq (bvh : BVH2) (s : ImplicitSurfaceSet2) (ray : Ray2D) :
    (IntersectsLocal bvh s ray).1 =
      (bvh.Intersects (BuildBVH s).m_bvh ray intersectsTestFunc ||
        s.m_unboundedSurfaces.any (fun m => m.Intersects ray)) := by
  simp only [IntersectsLocal, IntersectsLocal_loop_eq, BuildBVH_m_unboundedSurfaces]

/-- On a state whose tree is current and whose unbounded cache is exact, with a BVH whose
test is true exactly when some item intersects, `IntersectsLocal` is true if and only if
some member surface intersects the ray. -/
theorem IntersectsLocal_iff_of_treeCurrent (bvh : BVH2) (s : ImplicitSurfaceSet2)
    (ray : Ray2D) (hcache : UnboundedCacheExact s) (hcur : TreeCurrent s)
    (hbvh : bvh.IntersectsIsAny) :
    (IntersectsLocal bvh s ray).1 = true ↔ ∃ m ∈ s.m_surfaces, m.Intersects ray = true := by
  rw [IntersectsLocal_fst_eq, BuildBVH_m_bvh_of_treeCurrent s hcur, Bool.or_eq_true, hbvh,
    hcache, List.any_eq_true]
  constructor
  · rintro (⟨i, hi, h⟩ | ⟨m, hm, h⟩)
    · exact ⟨i, (List.mem_filter.mp hi).1, h⟩
    · exact ⟨m, (List.mem_filter.mp hm).1, h⟩
  · rintro ⟨m, hm, h⟩
    cases hb : m.IsBounded with
    | true => exact Or.inl ⟨m, List.mem_filter.mpr ⟨hm, hb⟩, h⟩
    | false => exact Or.inr ⟨m, List.mem_filter.mpr ⟨hm, by simp [hb]⟩, h⟩

/-- Claim C11, the code at the failing input. On the set obtained by constructing a set from
`near`, querying it and copy-assigning it from a set that holds `unhit` alone (a state the
public interface produces), with a BVH whose test is true exactly when some item it holds
intersects: no member intersects the ray, the BVH test over the bounded members is false
and there is no unbounded member, yet `IntersectsLocal` returns true, the answer of the old
tree that still holds the former member `near`. -/
theorem IntersectsLocal_stale_after_copy_assignment :
    (∀ flag0 : Bool, Reachable sampleToImplicit flag0 Sample.staleForRay) ∧
    BVH2.exhaustive.IntersectsIsAny ∧
    Sample.staleForRay.m_surfaces = [Sample.unhit] ∧
    Sample.staleForRay.m_unboundedSurfaces = [] ∧
    (∀ m ∈ Sample.staleForRay.m_surfaces, m.Intersects Sample.ray0 = false) ∧
    BVH2.exhaustive.Intersects
      (treeOf (Sample.staleForRay.m_surfaces.filter (fun m => m.IsBounded))) Sample.ray0
      intersectsTestFunc = false ∧
    (IntersectsLocal BVH2.exhaustive Sample.staleForRay Sample.ray0).1 = true := by
  have hsurf : Sample.staleForRay.m_surfaces = [Sample.unhit] := by
    simp [Sample.staleForRay, assign, ofImplicit, InvalidateBVH, defaultInit]
  have hunb : Sample.staleForRay.m_unboundedSurfaces = [] := by
    simp [Sample.staleForRay, assign, ofImplicit, InvalidateBVH, defaultInit, appendUnbounded,
      Sample.unhit, pointSurface]
  refine ⟨?_, exhaustive_IntersectsIsAny, hsurf, hunb, ?_, ?_, ?_⟩
  · intro flag0
    exact Reachable.assign
      (Reachable.BuildBVH (Reachable.ofImplicit [Sample.near] Transform2.identity false))
      (Reachable.ofImplicit [Sample.unhit] Transform2.identity false)
  · rw [hsurf]
    simp [Sample.unhit, pointSurface]
  · rw [hsurf]
    simp [BVH2.exhaustive, treeOf, BVH2Tree.Build, intersectsTestFunc, Sample.unhit,
      pointSurface]
  · simp [Sample.staleForRay, IntersectsLocal, ClosestDistanceLocal, BuildBVH, assign,
      ofImplicit, InvalidateBVH, defaultInit, collectBounded, BVH2Tree.Build, appendUnbounded,
      Sample.near, Sample.unhit, pointSurface, BVH2.exhaustive, intersectsTestFunc,
      IntersectsLocal.loop]

end ImplicitSurfaceSet2

/-! ## `ForEachIndex` -/

theorem ForEachIndex_loop_traced {σ : Type} (func : Nat → σ → σ) (count i : Nat)
    (st : σ × List Nat) :
    ForEachIndex.loop (ForEachIndex.traced func) i count st =
      (ForEachIndex.loop func i count st.1, st.2 ++ List.range' i count) := by
  induction count generalizing i st with
  | zero => simp [ForEachIndex.loop]
  | succ k ih =>
    simp only [ForEachIndex.loop, ih, ForEachIndex.traced, List.range'_succ,
      List.append_assoc, List.singleton_append]

theorem ForEachIndex_loop_testLambda (count i : Nat) (passed : Bool) :
    ForEachIndex.loop ForEachIndex.testLambda i count (i, passed) = (i + count, passed) := by
  induction count generalizing i with
  | zero => simp [ForEachIndex.loop]
  | succ k ih =>
    simp only [ForEachIndex.loop, ForEachIndex.testLambda, beq_self_eq_true, Bool.and_true, ih]
    rw [Nat.add_assoc, Nat.add_comm 1 k]

/-- Claim C12. For every `n` and every callback, `ForEachIndex(n, f)` invokes the callback
exactly `n` times, with the arguments 0, 1, ..., n-1 in ascending order: the record of the
indices passed is `[0, ..., n-1]`, it has length `n`, its `k`-th entry is `k`, no entry is
outside `[0, n)`, and recording does not change what the callback computes. In particular
every expectation of the two `ForEachIndex` tests holds and their counter ends at `n`. -/
theorem ForEachIndex_invokes_each_index_ascending {σ : Type} (n : Nat)
    (func : Nat → σ → σ) (state : σ) :
    (ForEachIndex n (ForEachIndex.traced func) (state, [])).2 = List.range n ∧
    (ForEachIndex n (ForEachIndex.traced func) (state, [])).2.length = n ∧
    (∀ k, k < n → (ForEachIndex n (ForEachIndex.traced func) (state, [])).2[k]? = some k) ∧
    (∀ i ∈ (ForEachIndex n (ForEachIndex.traced func) (state, [])).2, i < n) ∧
    (ForEachIndex n (ForEachIndex.traced func) (state, [])).1 = ForEachIndex n func state ∧
    ForEachIndex n ForEachIndex.testLambda (0, true) = (n, true) := by
  have h : (ForEachIndex n (ForEachIndex.traced func) (state, [])).2 = List.range n := by
    simp [ForEachIndex, ForEachIndex_loop_traced, List.range_eq_range']
  refine ⟨h, ?_, ?_, ?_, ?_, ?_⟩
  · rw [h, List.length_range]
  · intro k hk
    rw [h]
    simp [hk]
  · intro i hi
    rw [h] at hi
    exact List.mem_range.mp hi
  · simp [ForEachIndex, ForEachIndex_loop_traced]
  · have := ForEachIndex_loop_testLambda n 0 true
    simpa [ForEachIndex] using this

/-- An instance of `ForEachIndex_invokes_each_index_ascending`: the call of the tests, over
an array of four elements. -/
theorem ForEachIndex_invokes_each_index_ascending_witness :
    (ForEachIndex 4 (ForEachIndex.traced ForEachIndex.testLambda) ((0, true), [])).2
      = [0, 1, 2, 3] ∧
    ForEachIndex 4 ForEachIndex.testLambda (0, true) = (4, true) :=
  ⟨(ForEachIndex_invokes_each_index_ascending 4 ForEachIndex.testLambda (0, true)).1,
   (ForEachIndex_invokes_each_index_ascending 4 ForEachIndex.testLambda (0, true)).2.2.2.2.2⟩

/-! ## The signed-distance fields handed to `Solve` -/

/-- Whenever one of the two keywords is supplied, the lambda raises `cast_error` and does
not invoke `Solve`, whatever the grids. -/
theorem solverBody_keyword_raises_cast_error (source dest : GridPtr) (c t : Double)
    (kwargs : List (String × PyObject))
    (h : kwargsContains kwargs "boundarySDF" = true ∨ kwargsContains kwargs "fluidSDF" = true) :
    solverBody source c t dest kwargs = { solveCalls := [], raised := some .cast_error } := by
  cases hb : kwargsContains kwargs "boundarySDF" with
  | true => simp [solverBody, hb, PyObject.castScalarFieldPtr]
  | false =>
    have hf : kwargsContains kwargs "fluidSDF" = true := by
      rcases h with h | h
      · rw [hb] at h; cases h
      · exact h
    simp [solverBody, hb, hf, PyObject.castScalarFieldPtr]

/-- When neither keyword is supplied, every invocation of `Solve` receives the constant
field of value `DBL_MAX` as boundary field and the constant field of value `-DBL_MAX` as
fluid field. -/
theorem solverBody_default_fields (source dest : GridPtr) (c t : Double)
    (kwargs : List (String × PyObject))
    (hb : kwargsContains kwargs "boundarySDF" = false)
    (hf : kwargsContains kwargs "fluidSDF" = false) :
    ∀ call ∈ (solverBody source c t dest kwargs).solveCalls,
      call.boundarySDF = .constant DBL_MAX ∧ call.fluidSDF = .constant (-DBL_MAX) := by
  rcases source with _ | ⟨i, a1, a2, a3⟩ <;> rcases dest with _ | ⟨j, b1, b2, b3⟩ <;>
    simp [solverBody, dynamicPointerCast, Grid.has, hb, hf] <;>
    cases a1 <;> cases b1 <;> cases a2 <;> cases b2 <;> cases a3 <;> cases b3 <;>
    simp [Grid.has]

/-- Claim C13, the code at the failing input. With two scalar grids (matching kinds) and a
caller's field supplied under the keyword `boundarySDF`, or under the keyword `fluidSDF`,
both lambdas raise `cast_error` and never invoke `Solve`, so no field of the caller is
handed to `Solve`; without keywords the same call invokes `Solve` once, with the constant
fields of value `DBL_MAX` and `-DBL_MAX`. -/
theorem Solver_keyword_makes_the_call_fail :
    shareRepresentation (some Sample.scalarGrid) (some Sample.scalarGrid) ∧
    AddGridForwardEulerDiffusionSolver2.Solver (some Sample.scalarGrid) 1 1
        (some Sample.scalarGrid) [("boundarySDF", PyObject.scalarField Sample.callerField)]
      = { solveCalls := [], raised := some Exception.cast_error } ∧
    AddGridForwardEulerDiffusionSolver2.Solver (some Sample.scalarGrid) 1 1
        (some Sample.scalarGrid) [("fluidSDF", PyObject.scalarField Sample.callerField)]
      = { solveCalls := [], raised := some Exception.cast_error } ∧
    AddGridForwardEulerDiffusionSolver3.Solver (some Sample.scalarGrid) 1 1
        (some Sample.scalarGrid) [("boundarySDF", PyObject.scalarField Sample.callerField)]
      = { solveCalls := [], raised := some Exception.cast_error } ∧
    AddGridForwardEulerDiffusionSolver3.Solver (some Sample.scalarGrid) 1 1
        (some Sample.scalarGrid) [("fluidSDF", PyObject.scalarField Sample.callerField)]
      = { solveCalls := [], raised := some Exception.cast_error } ∧
    AddGridForwardEulerDiffusionSolver2.Solver (some Sample.scalarGrid) 1 1
        (some Sample.scalarGrid) []
      = { solveCalls := [{ representation := .scalar, source := Sample.scalarGrid,
                           diffusionCoefficient := 1, timeIntervalInSeconds := 1,
                           dest := Sample.scalarGrid,
                           boundarySDF := .constant DBL_MAX,
                           fluidSDF := .constant (-DBL_MAX) }],
          raised := none } := by
  refine ⟨⟨.scalar, Sample.scalarGrid, Sample.scalarGrid, rfl, rfl, rfl, rfl⟩, ?_, ?_, ?_, ?_, ?_⟩
  · exact solverBody_keyword_raises_cast_error _ _ _ _ _ (Or.inl (by simp [kwargsContains]))
  · exact solverBody_keyword_raises_cast_error _ _ _ _ _ (Or.inr (by simp [kwargsContains]))
  · exact solverBody_keyword_raises_cast_error _ _ _ _ _ (Or.inl (by simp [kwargsContains]))
  · exact solverBody_keyword_raises_cast_error _ _ _ _ _ (Or.inr (by simp [kwargsContains]))
  · simp [AddGridForwardEulerDiffusionSolver2.Solver, solverBody, kwargsContains,
      dynamicPointerCast, Grid.has, Sample.scalarGrid]

/-! ## Ties at the minimum distance -/

namespace ImplicitSurfaceSet2

theorem ClosestPointLocal_loop_snoc_pair_of_lt (DistanceTo : Vector2D → Vector2D → Double)
    (p : Vector2D) (acc : Double × Vector2D) (l : List ImplicitSurface2)
    (surface : ImplicitSurface2)
    (h : DistanceTo (surface.ClosestPoint p) p < ClosestDistanceLocal.loop DistanceTo p acc.1 l) :
    ClosestPointLocal.loop DistanceTo p acc (l ++ [surface]) =
      (DistanceTo (surface.ClosestPoint p) p, surface.ClosestPoint p) := by
  rw [ClosestPointLocal_loop_append]
  rw [← ClosestPointLocal_loop_fst] at h
  generalize ClosestPointLocal.loop DistanceTo p acc l = a at h
  obtain ⟨d, r⟩ := a
  simp only [ClosestPointLocal.loop]
  rw [if_pos h]

theorem ClosestNormalLocal_loop_snoc_pair_of_lt (DistanceTo : Vector2D → Vector2D → Double)
    (p : Vector2D) (acc : Double × Vector2D) (l : List ImplicitSurface2)
    (surface : ImplicitSurface2)
    (h : DistanceTo (surface.ClosestPoint p) p < ClosestDistanceLocal.loop DistanceTo p acc.1 l) :
    ClosestNormalLocal.loop DistanceTo p acc (l ++ [surface]) =
      (DistanceTo (surface.ClosestPoint p) p, surface.ClosestNormal p) := by
  rw [ClosestNormalLocal_loop_append]
  rw [← ClosestNormalLocal_loop_fst] at h
  generalize ClosestNormalLocal.loop DistanceTo p acc l = a at h
  obtain ⟨d, r⟩ := a
  simp only [ClosestNormalLocal.loop]
  rw [if_pos h]

/-- The scan of `ClosestPointLocal` keeps the first surface that is strictly nearer than
everything before it and not beaten by anything after it. -/
theorem ClosestPointLocal_loop_first_minimum (DistanceTo : Vector2D → Vector2D → Double)
    (p : Vector2D) (acc : Double × Vector2D) (l₁ l₂ : List ImplicitSurface2)
    (u : ImplicitSurface2)
    (h₁ : DistanceTo (u.ClosestPoint p) p < ClosestDistanceLocal.loop DistanceTo p acc.1 l₁)
    (h₂ : ∀ m ∈ l₂, ¬ DistanceTo (m.ClosestPoint p) p < DistanceTo (u.ClosestPoint p) p) :
    (ClosestPointLocal.loop DistanceTo p acc (l₁ ++ u :: l₂)).2 = u.ClosestPoint p := by
  have hl : l₁ ++ u :: l₂ = (l₁ ++ [u]) ++ l₂ := by simp
  rw [hl, ClosestPointLocal_loop_append,
    ClosestPointLocal_loop_snoc_pair_of_lt DistanceTo p acc l₁ u h₁,
    ClosestPointLocal_loop_eq_self DistanceTo p _ l₂ h₂]

/-- The scan of `ClosestNormalLocal` keeps the first surface that is strictly nearer than
everything before it and not beaten by anything after it. -/
theorem ClosestNormalLocal_loop_first_minimum (DistanceTo : Vector2D → Vector2D → Double)
    (p : Vector2D) (acc : Double × Vector2D) (l₁ l₂ : List ImplicitSurface2)
    (u : ImplicitSurface2)
    (h₁ : DistanceTo (u.ClosestPoint p) p < ClosestDistanceLocal.loop DistanceTo p acc.1 l₁)
    (h₂ : ∀ m ∈ l₂, ¬ DistanceTo (m.ClosestPoint p) p < DistanceTo (u.ClosestPoint p) p) :
    (ClosestNormalLocal.loop DistanceTo p acc (l₁ ++ u :: l₂)).2 = u.ClosestNormal p := by
  have hl : l₁ ++ u :: l₂ = (l₁ ++ [u]) ++ l₂ := by simp
  rw [hl, ClosestNormalLocal_loop_append,
    ClosestNormalLocal_loop_snoc_pair_of_lt DistanceTo p acc l₁ u h₁,
    ClosestNormalLocal_loop_eq_self DistanceTo p _ l₂ h₂]

/-- Claim C14, as stated, is refuted. The set constructed from the unbounded surface `tied`
followed by the bounded surface `near` is non-empty, its tree is current, both members are
at the minimum distance 1 of `p0` and `tied` comes first in insertion order; yet, with a BVH
that meets the nearest contract, `ClosestPointLocal` and `ClosestNormalLocal` return the
closest point and the normal of `near`, which differ from those of `tied`. -/
theorem closest_queries_tie_prefers_bounded_member :
    Sample.tiedSet.m_surfaces = [Sample.tied, Sample.near] ∧
    TreeCurrent Sample.tiedSet ∧
    BVH2.exhaustive.NearestIsMin ∧
    (∀ m ∈ Sample.tiedSet.m_surfaces,
      m.ClosestDistance Sample.p0 = 1 ∧
      axisDistance (m.ClosestPoint Sample.p0) Sample.p0 = m.ClosestDistance Sample.p0) ∧
    (ClosestPointLocal axisDistance BVH2.exhaustive Sample.tiedSet Sample.p0).1
      = Sample.near.ClosestPoint Sample.p0 ∧
    (ClosestPointLocal axisDistance BVH2.exhaustive Sample.tiedSet Sample.p0).1
      ≠ Sample.tied.ClosestPoint Sample.p0 ∧
    (ClosestNormalLocal axisDistance BVH2.exhaustive Sample.tiedSet Sample.p0).1
      = Sample.near.ClosestNormal Sample.p0 ∧
    (ClosestNormalLocal axisDistance BVH2.exhaustive Sample.tiedSet Sample.p0).1
      ≠ Sample.tied.ClosestNormal Sample.p0 := by
  have hsurf : Sample.tiedSet.m_surfaces = [Sample.tied, Sample.near] := by
    simp [Sample.tiedSet, ofImplicit, InvalidateBVH, defaultInit]
  have hp : (ClosestPointLocal axisDistance BVH2.exhaustive Sample.tiedSet Sample.p0).1
      = Sample.near.ClosestPoint Sample.p0 := by
    simp [Sample.tiedSet, ClosestPointLocal, BuildBVH, ofImplicit, InvalidateBVH, defaultInit,
      collectBounded, BVH2Tree.Build, appendUnbounded, Sample.near, Sample.tied, pointSurface,
      BVH2.exhaustive, BVH2.nearestScan, distanceFunc, axisDistance, Sample.p0,
      ClosestPointLocal.loop]
  have hn : (ClosestNormalLocal axisDistance BVH2.exhaustive Sample.tiedSet Sample.p0).1
      = Sample.near.ClosestNormal Sample.p0 := by
    simp [Sample.tiedSet, ClosestNormalLocal, BuildBVH, ofImplicit, InvalidateBVH,
      defaultInit, collectBounded, BVH2Tree.Build, appendUnbounded, Sample.near, Sample.tied,
      pointSurface, BVH2.exhaustive, BVH2.nearestScan, distanceFunc, axisDistance, Sample.p0,
      ClosestNormalLocal.loop]
  refine ⟨hsurf, Or.inl rfl, exhaustive_NearestIsMin, ?_, hp, ?_, hn, ?_⟩
  · rw [hsurf]
    norm_num [Sample.tied, Sample.near, pointSurface, axisDistance, Sample.p0]
  · rw [hp]
    intro h
    have := congrArg Vector2D.x h
    norm_num [Sample.tied, Sample.near, pointSurface] at this
  · rw [hn]
    intro h
    have := congrArg Vector2D.x h
    norm_num [Sample.tied, Sample.near, pointSurface] at this

theorem exists_first_minimum (f : ImplicitSurface2 → Double) (l : List ImplicitSurface2)
    (h : l ≠ []) :
    ∃ pre i post, l = pre ++ i :: post ∧ (∀ m ∈ pre, f i < f m) ∧ (∀ m ∈ post, f i ≤ f m) := by
  induction l with
  | nil => exact absurd rfl h
  | cons a rest ih =>
    by_cases hrest : rest = []
    · subst hrest
      exact ⟨[], a, [], rfl, by simp, by simp⟩
    · obtain ⟨pre, i, post, hl, hpre, hpost⟩ := ih hrest
      by_cases hle : f a ≤ f i
      · refine ⟨[], a, rest, rfl, by simp, ?_⟩
        intro m hm
        rw [hl] at hm
        rcases List.mem_append.mp hm with hm | hm
        · exact le_trans hle (le_of_lt (hpre m hm))
        · rcases List.mem_cons.mp hm with rfl | hm
          · exact hle
          · exact le_trans hle (hpost m hm)
      · refine ⟨a :: pre, i, post, by rw [hl]; rfl, ?_, hpost⟩
        intro m hm
        rcases List.mem_cons.mp hm with rfl | hm
        · exact not_le.mp hle
        · exact hpre m hm

/-- A BVH that returns the first item at minimum distance returns an item at minimum
distance. -/
theorem NearestIsMin_of_NearestIsFirstMin {bvh : BVH2} (h : bvh.NearestIsFirstMin) :
    bvh.NearestIsMin := by
  intro items p
  refine ⟨(h items p).1, ?_⟩
  intro hne
  obtain ⟨pre, i, post, hl, hpre, hpost⟩ :=
    exists_first_minimum (fun m => m.ClosestDistance p) items hne
  refine ⟨i, by rw [hl]; simp, (h items p).2 pre i post hl hpre hpost, ?_⟩
  intro j hj
  rw [hl] at hj
  rcases List.mem_append.mp hj with hj | hj
  · exact le_of_lt (hpre j hj)
  · rcases List.mem_cons.mp hj with rfl | hj
    · exact le_refl _
    · exact hpost j hj

theorem nearestScan_eq_self (f : ImplicitSurface2 → Vector2D → Double) (p : Vector2D)
    (i : ImplicitSurface2) (post : List ImplicitSurface2)
    (h : ∀ m ∈ post, f i p ≤ f m p) :
    BVH2.nearestScan f p { item := some i, distance := f i p } post
      = { item := some i, distance := f i p } := by
  induction post with
  | nil => rfl
  | cons a rest ih =>
    simp only [BVH2.nearestScan, Option.isNone_some, Bool.false_eq_true, false_or]
    rw [if_neg (not_lt.mpr (h a (List.mem_cons_self _ _)))]
    exact ih (fun m hm => h m (List.mem_cons_of_mem _ hm))

theorem nearestScan_first_minimum (f : ImplicitSurface2 → Vector2D → Double) (p : Vector2D)
    (best : NearestNeighborQueryResult2) (pre : List ImplicitSurface2)
    (i : ImplicitSurface2) (post : List ImplicitSurface2)
    (hbest : best.item.isNone = true ∨ f i p < best.distance)
    (hpre : ∀ m ∈ pre, f i p < f m p) (hpost : ∀ m ∈ post, f i p ≤ f m p) :
    BVH2.nearestScan f p best (pre ++ i :: post) = { item := some i, distance := f i p } := by
  induction pre generalizing best with
  | nil =>
    simp only [List.nil_append, BVH2.nearestScan]
    rw [if_pos hbest]
    exact nearestScan_eq_self f p i post hpost
  | cons a rest ih =>
    simp only [List.cons_append, BVH2.nearestScan]
    split
    · exact ih _ (Or.inr (hpre a (List.mem_cons_self _ _)))
        (fun m hm => hpre m (List.mem_cons_of_mem _ hm))
    · exact ih best hbest (fun m hm => hpre m (List.mem_cons_of_mem _ hm))

theorem exhaustive_NearestIsFirstMin : BVH2.exhaustive.NearestIsFirstMin := by
  intro items p
  constructor
  · intro h
    subst h
    rfl
  · intro pre i post hl hpre hpost
    subst hl
    exact nearestScan_first_minimum distanceFunc p _ pre i post (Or.inl rfl) hpre hpost

/-- Claim C14, amended. For every non-empty set whose cached tree is current and every query
point `p`, with a BVH whose nearest query returns the first item at minimum distance in
build order and members whose `ClosestDistance` is the distance to their `ClosestPoint`:
when a bounded member is at the minimum distance from `p`, `ClosestPointLocal(p)` and
`ClosestNormalLocal(p)` return the closest point and the normal of the first bounded member
at that distance in insertion order, also when tied unbounded members come earlier; when
every bounded member is strictly farther and the minimum distance is below the maximum
representable double, they return those of the first member at minimum distance in
insertion order, an unbounded one. -/
theorem closest_queries_tie_break
    (SurfaceToImplicit2 : Surface2 → ImplicitSurface2) (flag0 : Bool)
    (DistanceTo : Vector2D → Vector2D → Double) (bvh : BVH2)
    (s : ImplicitSurfaceSet2) (p : Vector2D)
    (hreach : Reachable SurfaceToImplicit2 flag0 s) (hcur : TreeCurrent s)
    (hbvh : bvh.NearestIsFirstMin)
    (hdist : ∀ m ∈ s.m_surfaces, DistanceTo (m.ClosestPoint p) p = m.ClosestDistance p) :
    (∀ pre b post, s.m_surfaces = pre ++ b :: post → b.IsBounded = true →
      (∀ m ∈ s.m_surfaces, b.ClosestDistance p ≤ m.ClosestDistance p) →
      (∀ m ∈ pre, m.IsBounded = true → b.ClosestDistance p < m.ClosestDistance p) →
      (ClosestPointLocal DistanceTo bvh s p).1 = b.ClosestPoint p ∧
      (ClosestNormalLocal DistanceTo bvh s p).1 = b.ClosestNormal p) ∧
    (∀ pre u post, s.m_surfaces = pre ++ u :: post → u.IsBounded = false →
      u.ClosestDistance p < DBL_MAX →
      (∀ m ∈ s.m_surfaces, u.ClosestDistance p ≤ m.ClosestDistance p) →
      (∀ m ∈ pre, u.ClosestDistance p < m.ClosestDistance p) →
      (∀ m ∈ s.m_surfaces, m.IsBounded = true →
        u.ClosestDistance p < m.ClosestDistance p) →
      (ClosestPointLocal DistanceTo bvh s p).1 = u.ClosestPoint p ∧
      (ClosestNormalLocal DistanceTo bvh s p).1 = u.ClosestNormal p) := by
  have hcache : UnboundedCacheExact s := hreach.unboundedCacheExact
  have hU : ∀ m ∈ s.m_unboundedSurfaces, m ∈ s.m_surfaces := by
    intro m hm
    rw [hcache] at hm
    exact (List.mem_filter.mp hm).1
  rw [ClosestPointLocal_fst_of_treeCurrent _ _ _ _ hcur,
    ClosestNormalLocal_fst_of_treeCurrent _ _ _ _ hcur]
  constructor
  · intro pre b post hsurf hbdd hmin hpre
    have hsplit : s.m_surfaces.filter (fun m => m.IsBounded) =
        pre.filter (fun m => m.IsBounded) ++ b :: post.filter (fun m => m.IsBounded) := by
      rw [hsurf, List.filter_append, List.filter_cons_of_pos (by simp [hbdd])]
    have heq := (hbvh (s.m_surfaces.filter (fun m => m.IsBounded)) p).2 _ b _ hsplit
      (fun m hm => hpre m (List.mem_filter.mp hm).1 (by simpa using (List.mem_filter.mp hm).2))
      (fun m hm => hmin m (by
        rw [hsurf]
        exact List.mem_append_right _ (List.mem_cons_of_mem _ (List.mem_filter.mp hm).1)))
    have hkeep : ∀ m ∈ s.m_unboundedSurfaces,
        ¬ DistanceTo (m.ClosestPoint p) p < b.ClosestDistance p := by
      intro m hm
      rw [hdist m (hU m hm)]
      exact not_lt.mpr (hmin m (hU m hm))
    rw [heq]
    exact ⟨by rw [ClosestPointLocal_loop_eq_self _ _ _ _ hkeep],
      by rw [ClosestNormalLocal_loop_eq_self _ _ _ _ hkeep]⟩
  · intro pre u post hsurf hunb hfin hmin hpre hbdd
    have huS : u ∈ s.m_surfaces := by rw [hsurf]; simp
    have hsplit : s.m_unboundedSurfaces =
        pre.filter (fun m => !m.IsBounded) ++ u :: post.filter (fun m => !m.IsBounded) := by
      rw [hcache, hsurf, List.filter_append, List.filter_cons_of_pos (by simp [hunb])]
    have hq := lt_Nearest_distance (NearestIsMin_of_NearestIsFirstMin hbvh)
      (s.m_surfaces.filter (fun m => m.IsBounded)) u p
      (fun m hm => hbdd m (List.mem_filter.mp hm).1 (by simpa using (List.mem_filter.mp hm).2))
      hfin
    have h₁ : DistanceTo (u.ClosestPoint p) p <
        ClosestDistanceLocal.loop DistanceTo p
          (bvh.Nearest (treeOf (s.m_surfaces.filter (fun m => m.IsBounded))) p
            distanceFunc).distance (pre.filter (fun m => !m.IsBounded)) := by
      rw [hdist u huS]
      rcases ClosestDistanceLocal_loop_eq_init_or_mem DistanceTo p
        (bvh.Nearest (treeOf (s.m_surfaces.filter (fun m => m.IsBounded))) p
          distanceFunc).distance (pre.filter (fun m => !m.IsBounded)) with h | ⟨m, hm, h⟩
      · rw [h]; exact hq
      · have hmpre : m ∈ pre := (List.mem_filter.mp hm).1
        have hmS : m ∈ s.m_surfaces := by rw [hsurf]; exact List.mem_append_left _ hmpre
        rw [h, hdist m hmS]
        exact hpre m hmpre
    have h₂ : ∀ m ∈ post.filter (fun m => !m.IsBounded),
        ¬ DistanceTo (m.ClosestPoint p) p < DistanceTo (u.ClosestPoint p) p := by
      intro m hm
      have hmS : m ∈ s.m_surfaces := by
        rw [hsurf]
        exact List.mem_append_right _ (List.mem_cons_of_mem _ (List.mem_filter.mp hm).1)
      rw [hdist m hmS, hdist u huS]
      exact not_lt.mpr (hmin m hmS)
    rw [hsplit]
    exact ⟨ClosestPointLocal_loop_first_minimum DistanceTo p _ _ _ u h₁ h₂,
      ClosestNormalLocal_loop_first_minimum DistanceTo p _ _ _ u h₁ h₂⟩

/-- An instance of `closest_queries_tie_break`, one for each half. In the set of the
unbounded `tied`, the bounded `near` and the bounded `nearTwin`, all at distance 1 with three
different closest points and normals, the first bounded member `near` answers: point (1, 0),
normal (0, 1). In the set of the bounded `far` at distance 5 and the unbounded `wideFirst`
and `wideSecond` at distance 3, the first of the two tied members, `wideFirst`, answers:
point (0, 3), normal (-1, 0). -/
theorem closest_queries_tie_break_witness :
    ((ClosestPointLocal axisDistance BVH2.exhaustive Sample.tiedBoundedSet Sample.p0).1
        = { x := 1, y := 0 } ∧
      (ClosestNormalLocal axisDistance BVH2.exhaustive Sample.tiedBoundedSet Sample.p0).1
        = { x := 0, y := 1 }) ∧
    ((ClosestPointLocal axisDistance BVH2.exhaustive Sample.tiedUnboundedSet Sample.p0).1
        = { x := 0, y := 3 } ∧
      (ClosestNormalLocal axisDistance BVH2.exhaustive Sample.tiedUnboundedSet Sample.p0).1
        = { x := -1, y := 0 }) :=
  ⟨(closest_queries_tie_break sampleToImplicit true axisDistance BVH2.exhaustive
      Sample.tiedBoundedSet Sample.p0 (Reachable.ofImplicit _ _ _) (Or.inl rfl)
      exhaustive_NearestIsFirstMin
      (by simp [Sample.tiedBoundedSet, ofImplicit, InvalidateBVH, defaultInit, Sample.tied,
            Sample.near, Sample.nearTwin, pointSurface])).1
      [Sample.tied] Sample.near [Sample.nearTwin]
      (by simp [Sample.tiedBoundedSet, ofImplicit, InvalidateBVH, defaultInit])
      (by simp [Sample.near, pointSurface])
      (by simp [Sample.tiedBoundedSet, ofImplicit, InvalidateBVH, defaultInit, Sample.tied,
            Sample.near, Sample.nearTwin, pointSurface, axisDistance, Sample.p0])
      (by simp [Sample.tied, pointSurface]),
   (closest_queries_tie_break sampleToImplicit true axisDistance BVH2.exhaustive
      Sample.tiedUnboundedSet Sample.p0 (Reachable.ofImplicit _ _ _) (Or.inl rfl)
      exhaustive_NearestIsFirstMin
      (by simp [Sample.tiedUnboundedSet, ofImplicit, InvalidateBVH, defaultInit, Sample.far,
            Sample.wideFirst, Sample.wideSecond, pointSurface])).2
      [Sample.far] Sample.wideFirst [Sample.wideSecond]
      (by simp [Sample.tiedUnboundedSet, ofImplicit, InvalidateBVH, defaultInit])
      (by simp [Sample.wideFirst, pointSurface])
      (by norm_num [Sample.wideFirst, pointSurface, axisDistance, Sample.p0, DBL_MAX])
      (by simp [Sample.tiedUnboundedSet, ofImplicit, InvalidateBVH, defaultInit, Sample.far,
            Sample.wideFirst, Sample.wideSecond, pointSurface, axisDistance, Sample.p0]
          <;> norm_num)
      (by norm_num [Sample.far, Sample.wideFirst, pointSurface, axisDistance, Sample.p0])
      (by simp [Sample.tiedUnboundedSet, ofImplicit, InvalidateBVH, defaultInit, Sample.far,
            Sample.wideFirst, Sample.wideSecond, pointSurface, axisDistance, Sample.p0]
          <;> norm_num)⟩

end ImplicitSurfaceSet2

end CubbyFlow
